import Mathlib

/-!
Verification development for the TryGo source-to-source translator.

The development shallowly embeds the core of the translator:

* pass 1, try()-call elimination (`try_elim.go`): validation of `try(...)`
  calls (`checkTryCall`), rewriting of value specs, assignments and top-level
  expression statements (`visitSpec`, `visitAssign`, `visitToplevelExpr`) and
  the detection of stray `try()` calls left in unsupported positions
  (`visitPre`, case `*ast.CallExpr`);
* pass 2, nil-check insertion (`nil_check.go`): zero-value synthesis
  (`zeroValueOf`), guard construction and statement splicing
  (`insertIfNilChkStmtAfter`, `insertStmtAt`, `removeStmtAt`), the three
  transformations (`transValueSpec`, `transAssign`, `transToplevelExpr`) and
  the per-block driver (`block`);
* the orchestration (`translatePackage`, `Translate`) and the import fixer
  (`resolveImportPath`, `fixImport`, `fixPackage`, `fixImports`).

Modelling conventions:

* Go AST nodes mutated in place are modelled by state passing: a function
  that mutates a node returns the updated node, and a function that mutates
  the statement list of the enclosing block returns the updated list.
  Pointer aliasing between a translation point and its host statement is
  resolved by locating the host statement inside the block statement list at
  its recorded (offset-adjusted) index, which is exactly the invariant the
  source maintains.
* `panic` and failed type assertions are modelled by `Option`/`Except`
  (`none` / `.error` means the Go code panics or reports an error).
* Source positions (`token.Pos`) are natural numbers.
* Machine integers do not occur in the modelled code paths (all counters are
  unbounded Go `int`/`uint` used as indices and cannot overflow in practice);
  they are modelled as `Nat`/`Int`.
-/

/-- A source position (`token.Pos`). -/
abbrev Pos := Nat

/-- An identifier (`ast.Ident`): a name together with its position. -/
structure Ident where
  name : String
  pos : Pos
deriving Repr, DecidableEq

/-- Literal kinds of `ast.BasicLit` (`token.INT` etc.) used by the translator. -/
inductive LitKind where
  | int
  | float
  | imag
  | str
  | char
deriving Repr, DecidableEq

/-- Binary operators appearing in the modelled fragment (`token.NEQ` for the
generated guards, plus ordinary arithmetic operators for input programs). -/
inductive BinOp where
  | neq
  | add
  | sub
  | mul
deriving Repr, DecidableEq

/-- Expressions of the embedded Go AST fragment (`ast.Expr`). -/
inductive Expr where
  /-- `*ast.Ident` -/
  | ident (i : Ident)
  /-- `*ast.BasicLit` (`Value` is the literal source text) -/
  | basicLit (kind : LitKind) (value : String) (pos : Pos)
  /-- `*ast.CallExpr` -/
  | call (fn : Expr) (args : List Expr) (pos : Pos)
  /-- `*ast.BinaryExpr` -/
  | binary (op : BinOp) (x : Expr) (y : Expr)
  /-- `*ast.ParenExpr` -/
  | paren (x : Expr)
  /-- `*ast.CompositeLit` (only the `Type` field is relevant here) -/
  | compositeLit (typ : Expr)
  /-- `*ast.SelectorExpr` (used for qualified type nodes such as `pkg.S`) -/
  | selector (x : Expr) (field : String)
deriving Repr

/-- Declaration token of a `GenDecl` hosting a value spec (`var` / `const`). -/
inductive DeclTok where
  | varTok
  | constTok
deriving Repr, DecidableEq

/-- Assignment operators (`token.Token` of an `ast.AssignStmt`).  `define` is
`:=`, `assign` is `=`, the remaining constructors are compound operators. -/
inductive AsgTok where
  | define
  | assign
  | addAssign
  | subAssign
  | mulAssign
deriving Repr, DecidableEq

/-- A value spec (`ast.ValueSpec`): names, optional type node, values. -/
structure ValueSpec where
  names : List Ident
  typ : Option Expr
  values : List Expr
  pos : Pos
deriving Repr

/-- Statements of the embedded fragment (`ast.Stmt`).  `varDecl` stands for a
`*ast.DeclStmt` holding a `GenDecl` with a single value spec; `ifStmt` covers
the statement-list-owning nodes entered by the walker (its body plays the
role of the nested `*ast.BlockStmt`). -/
inductive Stmt where
  | exprStmt (x : Expr)
  | assign (pos : Pos) (lhs : List Expr) (tok : AsgTok) (rhs : List Expr)
  | varDecl (tok : DeclTok) (spec : ValueSpec)
  | ifStmt (pos : Pos) (ifInit : Option Stmt) (cond : Expr) (body : List Stmt)
  | ret (results : List Expr)
deriving Repr

/-- Basic type kinds (`types.BasicKind`). -/
inductive BasicKind where
  | invalid
  | bool
  | int
  | int8
  | int16
  | int32
  | int64
  | uint
  | uint8
  | uint16
  | uint32
  | uint64
  | uintptr
  | float32
  | float64
  | complex64
  | complex128
  | str
  | unsafePointer
  | untypedBool
  | untypedInt
  | untypedRune
  | untypedFloat
  | untypedComplex
  | untypedString
  | untypedNil
deriving Repr, DecidableEq

/-- Semantic types (`types.Type`) as far as `zeroValueOf` inspects them.  The
payloads of the composite constructors are not inspected by the translator
(only the head of the type matters), except for `named`, whose underlying
type is recursed on, and `tuple`, whose length is read by
`transToplevelExpr`. -/
inductive GoType where
  | basic (k : BasicKind)
  | slice (elem : GoType)
  | pointer (elem : GoType)
  | signature
  | interface
  | map (key : GoType) (value : GoType)
  | chan (elem : GoType)
  | struct
  | array (elem : GoType) (len : Nat)
  | named (underlying : GoType)
  | tuple (elems : List GoType)
deriving Repr

/-- Builds `ast.NewIdent(name)` with an explicit position (`newIdent` in
`nil_check.go`). -/
def newIdent (name : String) (pos : Pos) : Ident :=
  ⟨name, pos⟩

/-- Tests whether a semantic type is `*types.Struct` (the type switch arm of
`zeroValueOf` used for the underlying type of a named type). -/
def GoType.isStruct : GoType → Bool
  | .struct => true
  | _ => false

/-- Embedding of `zeroValueOf` (`nil_check.go`).  Produces the expression
whose runtime value is the Go zero value of `ty`; `typeNode` is the declared
return-type AST node, reused for composite literals.  `none` models the
`panic` branches (tuple, unknown type, unreachable basic kind). -/
def zeroValueOf : GoType → Expr → Pos → Option Expr
  | .basic k, _, pos =>
    match k with
    | .bool | .untypedBool | .untypedInt => some (.ident (newIdent "false" pos))
    | .int | .int8 | .int16 | .int32 | .int64
    | .uint | .uint8 | .uint16 | .uint32 | .uint64
    | .uintptr => some (.basicLit .int "0" pos)
    | .float32 | .float64 | .untypedFloat => some (.basicLit .float "0.0" pos)
    | .complex64 | .complex128 | .untypedComplex => some (.basicLit .imag "0i" pos)
    | .str | .untypedString => some (.basicLit .str "\x22\x22" pos)
    | .unsafePointer | .untypedNil => some (.ident (newIdent "nil" pos))
    | .untypedRune => some (.basicLit .char "\x27\\0\x27" pos)
    | .invalid => none
  | .slice _, _, pos => some (.ident (newIdent "nil" pos))
  | .pointer _, _, pos => some (.ident (newIdent "nil" pos))
  | .signature, _, pos => some (.ident (newIdent "nil" pos))
  | .interface, _, pos => some (.ident (newIdent "nil" pos))
  | .map _ _, _, pos => some (.ident (newIdent "nil" pos))
  | .chan _, _, pos => some (.ident (newIdent "nil" pos))
  | .struct, typeNode, _ => some (.compositeLit typeNode)
  | .array _ _, typeNode, _ => some (.compositeLit typeNode)
  | .named u, typeNode, pos =>
    if u.isStruct then some (.compositeLit typeNode)
    else zeroValueOf u typeNode pos
  | .tuple _, _, _ => none

/-- One result field of a function type: the resolved semantic type
(`funcTy.Results().At(i).Type()`) paired with the declared syntactic type
node (`funcTyNode.Results.List[i].Type`). -/
structure RetDecl where
  sem : GoType
  syn : Expr
deriving Repr

/-- The return signature of an enclosing function frame, as pass 2 consumes
it through `funcTypeOf` (semantic signature and syntactic `FuncType`). -/
structure FuncFrame where
  results : List RetDecl
deriving Repr

/-- Kinds of translation points (`transKind` in `translate.go`). -/
inductive TransKind where
  | valueSpec
  | assignKind
  | toplevelCall
  | expr
deriving Repr, DecidableEq

/-- A translation point as pass 2 consumes it (`transPoint`).  `fn` is the
enclosing function frame (field `fun` in the source); `callTy` is the entry
of `typeInfo.Types` for `call` (present for top-level call points, `none`
models a missing entry, on which `typeInfoFor` panics). -/
structure TransPoint where
  kind : TransKind
  blockIndex : Nat
  fn : FuncFrame
  call : Expr
  callTy : Option GoType
  pos : Pos
deriving Repr

/-- State of the nil-check insertion pass inside one block
(`nilCheckInsertion`): the statement list of the current block, the
insertion offset and the per-block fresh-identifier counter. -/
structure NCI where
  stmts : List Stmt
  offset : Int
  varID : Nat
deriving Repr

/-- Generates a fresh error identifier `_err$n` and bumps the counter
(`genErrIdent`). -/
def genErrIdent (nci : NCI) (pos : Pos) : Ident × NCI :=
  (newIdent ("_err" ++ Nat.repr nci.varID) pos, { nci with varID := nci.varID + 1 })

/-- Inserts an element before index `i` of a list (the Go slice splice
`append(l[:i], x, l[i:]...)`). -/
def listInsertAt (l : List Stmt) (i : Nat) (s : Stmt) : List Stmt :=
  l.take i ++ s :: l.drop i

/-- Removes the element at index `i` of a list (`append(l[:i], l[i+1:]...)`). -/
def listRemoveAt (l : List Stmt) (i : Nat) : List Stmt :=
  l.take i ++ l.drop (i + 1)

/-- Embedding of `insertStmtAt`: inserts `stmt` before position
`idx + offset` of the current block and bumps the offset.  A negative
adjusted index would make the Go code panic; `Int.toNat` clamps instead,
and all theorems only use in-range indices. -/
def NCI.insertStmtAt (nci : NCI) (idx : Nat) (stmt : Stmt) : NCI :=
  { nci with
    stmts := listInsertAt nci.stmts ((idx : Int) + nci.offset).toNat stmt
    offset := nci.offset + 1 }

/-- Embedding of `removeStmtAt`: removes the statement at position
`idx + offset` and decrements the offset. -/
def NCI.removeStmtAt (nci : NCI) (idx : Nat) : NCI :=
  { nci with
    stmts := listRemoveAt nci.stmts ((idx : Int) + nci.offset).toNat
    offset := nci.offset - 1 }

/-- Replaces the last element of an identifier list
(`node.Names[len(node.Names)-1] = errIdent`; the Go code would panic on an
empty list, which cannot happen for a recorded translation point because
pass 1 appended a blank identifier). -/
def setLastIdent (names : List Ident) (i : Ident) : List Ident :=
  names.set (names.length - 1) i

/-- Replaces the last element of an expression list
(`node.Lhs[len(node.Lhs)-1] = errIdent`). -/
def setLastExpr (lhs : List Expr) (e : Expr) : List Expr :=
  lhs.set (lhs.length - 1) e

/-- Builds the guard statement inserted by `insertIfNilChkStmtAfter`:
`if errIdent != nil { return $zerovals..., errIdent }` with the given init
statement. -/
def mkNilChkStmt (errIdent : Ident) (ifInit : Option Stmt) (zeros : List Expr) : Stmt :=
  .ifStmt errIdent.pos ifInit
    (.binary .neq (.ident errIdent) (.ident (newIdent "nil" errIdent.pos)))
    [.ret (zeros ++ [.ident errIdent])]

/-- Computes the zero-value return vector of a function frame: one zero value
per non-error result (`for i := 0; i < retLen-1; i++` over
`rets.At(i)` / `funcTyNode.Results.List[i].Type`). -/
def zeroRetVals (fr : FuncFrame) (pos : Pos) : Option (List Expr) :=
  fr.results.dropLast.mapM (fun r => zeroValueOf r.sem r.syn pos)

/-- Embedding of `insertIfNilChkStmtAfter`: splices the nil-check guard at
position `index + 1` of the current block.  `none` models a `panic` inside
`zeroValueOf`. -/
def insertIfNilChkStmtAfter (nci : NCI) (index : Nat) (errIdent : Ident)
    (ifInit : Option Stmt) (fr : FuncFrame) : Option NCI :=
  match zeroRetVals fr errIdent.pos with
  | none => none
  | some zeros => some (nci.insertStmtAt (index + 1) (mkNilChkStmt errIdent ifInit zeros))

/-- Embedding of `transValueSpec`.  The host statement is located at its
offset-adjusted index (this is the pointer aliasing between
`trans.node` and the block statement list); its trailing blank identifier is
replaced by a fresh `_err$n` and the guard is spliced after it.  `none`
models the failing type assertion `trans.node.(*ast.ValueSpec)` or a zero
value panic. -/
def transValueSpec (nci : NCI) (tp : TransPoint) : Option NCI :=
  let hostIdx := ((tp.blockIndex : Int) + nci.offset).toNat
  match nci.stmts.get? hostIdx with
  | some (.varDecl tok spec) =>
    let (errIdent, nci1) := genErrIdent nci spec.pos
    let spec2 := { spec with names := setLastIdent spec.names errIdent }
    let nci2 := { nci1 with stmts := nci1.stmts.set hostIdx (.varDecl tok spec2) }
    insertIfNilChkStmtAfter nci2 tp.blockIndex errIdent none tp.fn
  | _ => none

/-- Embedding of `transAssign`.  For `:=` the trailing blank in the LHS is
replaced by a fresh `_err$n` and the guard spliced after; for any other
token (the `=` case) an additional `var _err$n error` declaration is spliced
before the assignment first. -/
def transAssign (nci : NCI) (tp : TransPoint) : Option NCI :=
  let hostIdx := ((tp.blockIndex : Int) + nci.offset).toNat
  match nci.stmts.get? hostIdx with
  | some (.assign apos lhs tok rhs) =>
    if tok = .define then
      let (errIdent, nci1) := genErrIdent nci apos
      let lhs2 := setLastExpr lhs (.ident errIdent)
      let nci2 := { nci1 with stmts := nci1.stmts.set hostIdx (.assign apos lhs2 tok rhs) }
      insertIfNilChkStmtAfter nci2 tp.blockIndex errIdent none tp.fn
    else
      let (errIdent, nci1) := genErrIdent nci apos
      let decl : Stmt := .varDecl .varTok
        ⟨[errIdent], some (.ident (newIdent "error" apos)), [], apos⟩
      let nci2 := nci1.insertStmtAt tp.blockIndex decl
      let hostIdx2 := ((tp.blockIndex : Int) + nci2.offset).toNat
      let nci3 := { nci2 with stmts := nci2.stmts.set hostIdx2 (.assign apos (setLastExpr lhs (.ident errIdent)) tok rhs) }
      insertIfNilChkStmtAfter nci3 tp.blockIndex errIdent none tp.fn
  | _ => none

/-- Embedding of `transToplevelExpr`: removes the expression statement,
computes the number of `_` binders from the resolved tuple type of the inner
call, and splices `if $ignores, err := f(...); err != nil { ... }` at the
same position. -/
def transToplevelExpr (nci : NCI) (tp : TransPoint) : Option NCI :=
  let nci1 := nci.removeStmtAt tp.blockIndex
  match tp.callTy with
  | none => none
  | some ty =>
    let numIgnores := match ty with
      | .tuple tpl => tpl.length - 1
      | _ => 0
    let pos := tp.pos
    let errIdent := newIdent "err" pos
    let lhs := (List.range numIgnores).map (fun _ => Expr.ident (newIdent "_" pos))
      ++ [Expr.ident errIdent]
    let assignStmt : Stmt := .assign pos lhs .define [tp.call]
    insertIfNilChkStmtAfter nci1 tp.blockIndex errIdent (some assignStmt) tp.fn

/-- Embedding of `insertNilCheck`: dispatch on the translation point kind.
The `expr` kind panics (`TODO`), modelled as `none`. -/
def insertNilCheck (nci : NCI) (tp : TransPoint) : Option NCI :=
  match tp.kind with
  | .valueSpec => transValueSpec nci tp
  | .assignKind => transAssign nci tp
  | .toplevelCall => transToplevelExpr nci tp
  | .expr => none

/-- Processes the translation points of one block in order (the loop over
`b.transPoints` in `block`). -/
def runPoints (nci : NCI) : List TransPoint → Option NCI
  | [] => some nci
  | tp :: tps =>
    match insertNilCheck nci tp with
    | none => none
    | some nci2 => runPoints nci2 tps

/-- A block tree node (`blockTree`): the statement list of the underlying
AST node, the translation points discovered at its statement level, and its
children.  `pos` identifies the underlying block node. -/
structure BlockTree where
  pos : Pos
  stmts : List Stmt
  transPoints : List TransPoint
  children : List BlockTree
deriving Repr

/-- Result of running pass 2 on one block tree node: the updated statement
list and the results for the children. -/
structure BlockRes where
  pos : Pos
  stmts : List Stmt
  children : List BlockRes
deriving Repr

mutual

/-- Embedding of `block`: resets `offset` and `varID`, applies the block's
translation points in order, then recurses into the children. -/
def blockRun : BlockTree → Option BlockRes
  | ⟨bpos, stmts, pts, children⟩ =>
    match runPoints ⟨stmts, 0, 0⟩ pts with
    | none => none
    | some nci =>
      match blockRunList children with
      | none => none
      | some cs => some ⟨bpos, nci.stmts, cs⟩

/-- Runs pass 2 on a list of block tree nodes in order. -/
def blockRunList : List BlockTree → Option (List BlockRes)
  | [] => some []
  | b :: bs =>
    match blockRun b with
    | none => none
    | some r =>
      match blockRunList bs with
      | none => none
      | some rs => some (r :: rs)

end

/-- Embedding of `nilCheckInsertion.translate`: processes every root block. -/
def nciTranslate (roots : List BlockTree) : Option (List BlockRes) :=
  blockRunList roots

/-- A positional diagnostic produced by pass 1 (`errAt` / `errfAt`). -/
structure TransErr where
  pos : Pos
  msg : String
deriving Repr, DecidableEq

/-- Message of the arity error in `checkTryCall`. -/
def msgTakes1 (n : Nat) : String :=
  "try() should take 1 argument but " ++ Nat.repr n ++ " arguments passed"

/-- Message of the non-call-argument error in `checkTryCall`. -/
def msgNotCall : String :=
  "try() call argument must be a function call"

/-- Message of the outside-function error in `checkTryCall`. -/
def msgOutsideFunc : String :=
  "try() function is used outside function"

/-- Message of the no-return error in `checkTryCall`. -/
def msgReturnsNothing : String :=
  "The function returns nothing. try() is not available"

/-- Message of the last-return-not-error error in `checkTryCall`. -/
def msgLastNotError : String :=
  "The function does not return error as last return value"

/-- Message of the stray-try error in `visitPre`, case `*ast.CallExpr`. -/
def msgNotTranslated : String :=
  "try() call was not translated. Only try() calls at toplevel call expression, assignments (= or :=), value spec (var or const) are translated"

/-- The syntactic type of a function (`ast.FuncType`): `results` is `none`
when the `Results` field list is nil, otherwise the declared result type
nodes. -/
structure FuncType where
  results : Option (List Expr)
deriving Repr

/-- Result of `checkTryCall`: not a try() call at all, a valid try() call
with its inner call, or an invalid one with a positional diagnostic. -/
inductive ChkRes where
  | notTry
  | ok (inner : Expr)
  | bad (e : TransErr)
deriving Repr

/-- Position of an expression node (`ast.Expr.Pos()`). -/
def Expr.exprPos : Expr → Pos
  | .ident i => i.pos
  | .basicLit _ _ pos => pos
  | .call _ _ pos => pos
  | .binary _ x _ => x.exprPos
  | .paren x => x.exprPos
  | .compositeLit typ => typ.exprPos
  | .selector x _ => x.exprPos

/-- Embedding of `checkTryCall` (`try_elim.go`).  `funcs` is the stack of
enclosing function types, topmost first (`tce.funcs`, whose top the source
reads through `tce.funcs.top()`). -/
def checkTryCall (funcs : List FuncType) (maybeCall : Expr) : ChkRes :=
  match maybeCall with
  | .call fn args cpos =>
    match fn with
    | .ident nm =>
      if nm.name ≠ "try" then .notTry
      else if args.length ≠ 1 then .bad ⟨cpos, msgTakes1 args.length⟩
      else
        match args with
        | [arg] =>
          match arg with
          | .call ifn iargs ipos =>
            match funcs with
            | [] => .bad ⟨cpos, msgOutsideFunc⟩
            | fty :: _ =>
              match fty.results with
              | none => .bad ⟨cpos, msgReturnsNothing⟩
              | some rets =>
                if rets.isEmpty then .bad ⟨cpos, msgReturnsNothing⟩
                else
                  match rets.getLast? with
                  | some (.ident e) =>
                    if e.name = "error" then .ok (.call ifn iargs ipos)
                    else .bad ⟨cpos, msgLastNotError⟩
                  | _ => .bad ⟨cpos, msgLastNotError⟩
          | _ => .bad ⟨cpos, msgNotCall⟩
        | _ => .notTry
    | _ => .notTry
  | _ => .notTry

/-- A translation point as pass 1 records it (`transPoint` fields that do not
depend on type information): kind, statement index inside the block at
discovery time, the inner call now standing in for the `try()` call, and the
source position of the original `try()` call. -/
structure TransPoint1 where
  kind : TransKind
  blockIndex : Nat
  call : Expr
  pos : Pos
deriving Repr

/-- A block tree node as pass 1 produces it (`blockTree`): the identifying
position of the underlying AST node, its final statement list, its
translation points and its children. -/
structure RawBlock where
  pos : Pos
  stmts : List Stmt
  points : List TransPoint1
  children : List RawBlock
deriving Repr

/-- State of pass 1 inside one block (`tryCallElimination` restricted to the
fields live while visiting a block): the statement list built so far (whose
length is the current `blkIndex`), the temp-identifier counter, the global
translation counter, the points and children recorded for the current block,
and the error slot. -/
structure P1S where
  out : List Stmt
  varID : Nat
  numTrans : Nat
  points : List TransPoint1
  children : List RawBlock
  err : Option TransErr
deriving Repr

/-- Result of `eliminateTryCall` for one candidate expression. -/
inductive ElimRes where
  | translated (inner : Expr)
  | skipped
  | failed
deriving Repr

/-- Embedding of `eliminateTryCall`: validates the candidate, squashes
`try(f(...))` to `f(...)` (the returned inner call replaces the node in the
host statement) and records a translation point at the current block index. -/
def eliminateTryCallM (funcs : List FuncType) (st : P1S) (kind : TransKind)
    (idx : Nat) (maybeTryCall : Expr) : P1S × ElimRes :=
  match checkTryCall funcs maybeTryCall with
  | .notTry => (st, .skipped)
  | .bad e => ({ st with err := some e }, .failed)
  | .ok inner =>
    let p : TransPoint1 := ⟨kind, idx, inner, maybeTryCall.exprPos⟩
    ({ st with points := st.points ++ [p], numTrans := st.numTrans + 1 }, .translated inner)

/-- Embedding of `visitSpec`: value specs with a single RHS value are
rewritten (`try` peeled, a blank identifier appended to the name list);
everything else is left alone. -/
def visitSpecM (funcs : List FuncType) (st : P1S) (idx : Nat) (spec : ValueSpec) :
    P1S × ValueSpec :=
  if spec.values.length ≠ 1 then (st, spec)
  else
    match spec.values with
    | [v] =>
      match eliminateTryCallM funcs st .valueSpec idx v with
      | (st1, .translated inner) =>
        (st1, { spec with names := spec.names ++ [newIdent "_" spec.pos], values := [inner] })
      | (st1, _) => (st1, spec)
    | _ => (st, spec)

/-- The non-compound path of `visitAssign` (tokens `:=` and `=`): eliminate
the try call of the single RHS value and append a blank identifier to the
LHS. -/
def visitAssignNC (funcs : List FuncType) (st : P1S) (idx : Nat) (apos : Pos)
    (lhs : List Expr) (tok : AsgTok) (rhs : List Expr) : P1S × Stmt :=
  match rhs with
  | [v] =>
    match eliminateTryCallM funcs st .assignKind idx v with
    | (st1, .translated inner) =>
      (st1, .assign apos (lhs ++ [.ident (newIdent "_" apos)]) tok [inner])
    | (st1, _) => (st1, .assign apos lhs tok rhs)
  | _ => (st, .assign apos lhs tok rhs)

/-- Embedding of `visitAssign` for an assignment that is a direct statement
of a block-like node (the `parents.top()` check passed).  Returns the updated
state, the statements to splice before the assignment (the `$tmp := rhs`
definition of the compound case) and the mutated assignment itself.
A compound assignment is split into two steps: `$tmp := rhs` (visited
recursively as a fresh translation candidate) followed by `lhs op= $tmp`. -/
def visitAssignM (funcs : List FuncType) (st : P1S) (idx : Nat) (apos : Pos)
    (lhs : List Expr) (tok : AsgTok) (rhs : List Expr) : P1S × List Stmt × Stmt :=
  if rhs.length ≠ 1 then (st, [], .assign apos lhs tok rhs)
  else if tok ≠ .define ∧ tok ≠ .assign then
    let tmp := newIdent ("_" ++ Nat.repr st.varID) 0
    let st1 := { st with varID := st.varID + 1 }
    let rhs0 := rhs.headD (.ident (newIdent "" 0))
    let (st2, defStmt) := visitAssignNC funcs st1 idx apos [.ident tmp] .define [rhs0]
    (st2, [defStmt], .assign apos lhs tok [.ident tmp])
  else
    let (st2, aStmt) := visitAssignNC funcs st idx apos lhs tok rhs
    (st2, [], aStmt)

mutual

/-- First stray `try()` call found by the generic AST walk of an expression
(`visitPre`, case `*ast.CallExpr`): returns the position of the `try`
identifier.  The walk does not descend into the arguments of a `try` call
because `visitPre` returns nil after reporting the error. -/
def findTryE : Expr → Option Pos
  | .ident _ => none
  | .basicLit _ _ _ => none
  | .call fn args _ =>
    match fn with
    | .ident i => if i.name = "try" then some i.pos else findTryL args
    | _ =>
      match findTryE fn with
      | some p => some p
      | none => findTryL args
  | .binary _ x y =>
    match findTryE x with
    | some p => some p
    | none => findTryE y
  | .paren x => findTryE x
  | .compositeLit typ => findTryE typ
  | .selector x _ => findTryE x

/-- First stray `try()` call in a list of expressions, in walk order. -/
def findTryL : List Expr → Option Pos
  | [] => none
  | e :: es =>
    match findTryE e with
    | some p => some p
    | none => findTryL es

end

/-- First stray `try()` call in an optional expression. -/
def findTryO : Option Expr → Option Pos
  | none => none
  | some e => findTryE e

/-- Sets the not-translated error when a stray `try()` call was found. -/
def setStray (st : P1S) : Option Pos → P1S
  | none => st
  | some p => { st with err := some ⟨p, msgNotTranslated⟩ }

/-- Stray-try positions in the children of a mutated assignment (the generic
walk visits `Lhs` then `Rhs`). -/
def assignStray : Stmt → Option Pos
  | .assign _ lhs _ rhs => findTryL (lhs ++ rhs)
  | _ => none

/-- Stray-try positions in the children of a value spec (the generic walk
visits `Names`, `Type`, then `Values`; names are identifiers and cannot hold
a call). -/
def specStray (spec : ValueSpec) : Option Pos :=
  match findTryO spec.typ with
  | some p => some p
  | none => findTryL spec.values

/-- Stray-try positions in the direct expressions of a simple statement used
as an `if` init clause.  Assignments and value specs in this position fail
the `parents.top()` block-likeness check of `visitAssign` (respectively
cannot occur), so the generic walk only reports stray `try()` calls; an
`ifStmt` cannot occur as an init clause. -/
def initStray : Option Stmt → Option Pos
  | none => none
  | some (.assign _ lhs _ rhs) => findTryL (lhs ++ rhs)
  | some (.exprStmt e) => findTryE e
  | some (.varDecl _ spec) => specStray spec
  | some (.ret results) => findTryL results
  | some (.ifStmt _ _ cond _) => findTryE cond

/-- Embedding of `visitToplevelExpr`: tries to eliminate a top-level
`try(f(...))` expression statement; when the expression is not a valid
translation target and no error was raised, the expression is walked to
surface stray `try()` calls. -/
def visitToplevelExprM (funcs : List FuncType) (st : P1S) (e : Expr) : P1S :=
  let idx := st.out.length
  match eliminateTryCallM funcs st .toplevelCall idx e with
  | (st1, .translated inner) => { st1 with out := st1.out ++ [.exprStmt inner] }
  | (st1, .skipped) =>
    let st2 := if st1.err = none then setStray st1 (findTryE e) else st1
    { st2 with out := st2.out ++ [.exprStmt e] }
  | (st1, .failed) => { st1 with out := st1.out ++ [.exprStmt e] }

mutual

/-- Embedding of the per-statement work of `visitStmts` / `visitPre` for one
statement at the top level of a block: expression statements receive the
dedicated `visitToplevelExpr` handling, assignments and value specs are
rewritten in place, `if` statements open a child block (fresh statement
index and temp-identifier counter) that is processed recursively, and the
generic walk surfaces stray `try()` calls in all remaining expressions. -/
def processStmt (funcs : List FuncType) (st : P1S) : Stmt → P1S
  | .exprStmt e => visitToplevelExprM funcs st e
  | .assign apos lhs tok rhs =>
    let idx := st.out.length
    match visitAssignM funcs st idx apos lhs tok rhs with
    | (st1, pre, aMut) =>
      let st2 := if st1.err = none then setStray st1 (assignStray aMut) else st1
      { st2 with out := st2.out ++ pre ++ [aMut] }
  | .varDecl tok spec =>
    let idx := st.out.length
    match visitSpecM funcs st idx spec with
    | (st1, spec2) =>
      let st2 := if st1.err = none then setStray st1 (specStray spec2) else st1
      { st2 with out := st2.out ++ [.varDecl tok spec2] }
  | .ifStmt ipos ifInit cond body =>
    let st1 := if st.err = none then setStray st (initStray ifInit) else st
    let st2 := if st1.err = none then setStray st1 (findTryE cond) else st1
    if st2.err = none then
      let child := processStmts funcs ⟨[], 0, st2.numTrans, [], [], none⟩ body
      let rb : RawBlock := ⟨ipos, child.out, child.points, child.children⟩
      { st2 with
        out := st2.out ++ [.ifStmt ipos ifInit cond child.out]
        numTrans := child.numTrans
        err := child.err
        children := st2.children ++ [rb] }
    else { st2 with out := st2.out ++ [.ifStmt ipos ifInit cond body] }
  | .ret results =>
    let st1 := if st.err = none then setStray st (findTryL results) else st
    { st1 with out := st1.out ++ [.ret results] }

/-- Embedding of `visitStmts`: processes the statements of one block in
order, stopping (and leaving the remaining statements untouched) as soon as
an error has been recorded. -/
def processStmts (funcs : List FuncType) (st : P1S) : List Stmt → P1S
  | [] => st
  | s :: rest =>
    if st.err.isSome then { st with out := st.out ++ s :: rest }
    else processStmts funcs (processStmt funcs st s) rest

end

/-- Runs pass 1 on one root block (a function body): the initial state of
`visitBlockNode` for a root. -/
def runBlockP1 (funcs : List FuncType) (bpos : Pos) (stmts : List Stmt) : P1S × RawBlock :=
  let st := processStmts funcs ⟨[], 0, 0, [], [], none⟩ stmts
  (st, ⟨bpos, st.out, st.points, st.children⟩)

/-- A function declaration as the orchestration sees it: its syntactic type
(used by pass 1), the resolved signature paired with the declared result
nodes (what `funcTypeOf` returns in pass 2, i.e. the outcome of the type
check for this function), the position of its body block and the body. -/
structure FuncDecl0 where
  ftype : FuncType
  frame : FuncFrame
  bodyPos : Pos
  body : List Stmt
deriving Repr

/-- An import spec (`ast.ImportSpec`): the unquoted import path string and
the node position. -/
structure ImportSpec where
  path : String
  pos : Pos
deriving Repr

/-- A parsed Go file of a package. -/
structure PkgFile where
  filePath : String
  imports : List ImportSpec
  funcs : List FuncDecl0
deriving Repr

/-- Embedding of `Package` (`package.go`): the parsed files, the destination
path (`Path`), the origin path (`Birth`), the collected type information for
top-level `try()` calls (`types.Info.Types`, keyed by the position of the
call node) and the dirty flag (`modified`). -/
structure Package where
  files : List PkgFile
  path : String
  birth : String
  typeEnv : List (Pos × GoType)
  modified : Bool
deriving Repr

/-- Embedding of `NewPackage`: builds a package with the dirty flag unset. -/
def NewPackage (files : List PkgFile) (srcPath destPath : String)
    (typeEnv : List (Pos × GoType)) : Package :=
  { files := files, path := destPath, birth := srcPath, typeEnv := typeEnv, modified := false }

/-- Attaches type information to a pass-1 translation point, producing the
view pass 2 consumes: the enclosing function frame (`trans.fun` resolved via
`funcTypeOf`) and the `typeInfo.Types` entry for the inner call (looked up
by the position identifying the call node; a missing entry makes
`typeInfoFor` panic, modelled by `none`). -/
def toTransPoint (frame : FuncFrame) (env : List (Pos × GoType)) (p : TransPoint1) : TransPoint :=
  ⟨p.kind, p.blockIndex, frame, p.call, env.lookup p.call.exprPos, p.pos⟩

mutual

/-- Converts a pass-1 block tree into the pass-2 view by attaching the type
information to every translation point. -/
def toBlockTree (frame : FuncFrame) (env : List (Pos × GoType)) : RawBlock → BlockTree
  | ⟨bpos, stmts, pts, children⟩ =>
    ⟨bpos, stmts, pts.map (toTransPoint frame env), toBlockTreeL frame env children⟩

/-- Converts a list of pass-1 block trees. -/
def toBlockTreeL (frame : FuncFrame) (env : List (Pos × GoType)) :
    List RawBlock → List BlockTree
  | [] => []
  | b :: bs => toBlockTree frame env b :: toBlockTreeL frame env bs

end

/-- Grafts rebuilt child bodies into the block-owning statements of a list.
Statements pass 2 inserted (the guards) have no corresponding child block
and are left untouched. -/
def graftList (stmts : List Stmt) (rc : List (Pos × List Stmt)) : List Stmt :=
  stmts.map fun s =>
    match s with
    | .ifStmt p ifInit cond body =>
      match rc.lookup p with
      | some newBody => .ifStmt p ifInit cond newBody
      | none => .ifStmt p ifInit cond body
    | s => s

mutual

/-- Reassembles the statement list of a block after pass 2: the result of a
child block is grafted back into the block-owning statement it came from
(in the source this happens through pointer sharing; here the statement is
identified by the position of the underlying AST node). -/
def rebuildRes : BlockRes → Pos × List Stmt
  | ⟨bpos, stmts, children⟩ => (bpos, graftList stmts (rebuildResL children))

/-- Reassembles a list of child blocks. -/
def rebuildResL : List BlockRes → List (Pos × List Stmt)
  | [] => []
  | c :: cs => rebuildRes c :: rebuildResL cs

end

/-- A translated function together with the block tree pass 1 produced for
its body. -/
structure TransUnit where
  fdecl : FuncDecl0
  rb : RawBlock
deriving Repr

/-- A file after pass 1: imports unchanged, each function paired with its
root block tree. -/
structure PkgFileU where
  filePath : String
  imports : List ImportSpec
  units : List TransUnit
deriving Repr

/-- Pass 1 of `translatePackage` over the functions of one file.  Processing
stops at the first error (`Visit` returns nil once `tce.err` is set), leaving
the remaining functions untouched. -/
def p1Funcs : List FuncDecl0 → List TransUnit × Nat × Option TransErr
  | [] => ([], 0, none)
  | f :: rest =>
    let (st, rb) := runBlockP1 [f.ftype] f.bodyPos f.body
    match st.err with
    | some e =>
      (⟨{ f with body := st.out }, rb⟩ :: rest.map (fun g => ⟨g, ⟨g.bodyPos, g.body, [], []⟩⟩),
        st.numTrans, some e)
    | none =>
      let (us, n, err) := p1Funcs rest
      (⟨{ f with body := st.out }, rb⟩ :: us, st.numTrans + n, err)

/-- Pass 1 of `translatePackage` over all files of a package. -/
def p1Files : List PkgFile → List PkgFileU × Nat × Option TransErr
  | [] => ([], 0, none)
  | file :: rest =>
    let (us, n, err) := p1Funcs file.funcs
    match err with
    | some e =>
      (⟨file.filePath, file.imports, us⟩ ::
        rest.map (fun g => ⟨g.filePath, g.imports, g.funcs.map (fun f => ⟨f, ⟨f.bodyPos, f.body, [], []⟩⟩)⟩),
        n, some e)
    | none =>
      let (fs, m, err2) := p1Files rest
      (⟨file.filePath, file.imports, us⟩ :: fs, n + m, err2)

/-- Drops the block trees after pass 1 (used when no translation point was
found and the later phases are skipped). -/
def stripUnits (files : List PkgFileU) : List PkgFile :=
  files.map fun f => ⟨f.filePath, f.imports, f.units.map (·.fdecl)⟩

/-- Pass 2 for one function: runs nil-check insertion on the root block tree
of its body and reassembles the body. -/
def p2Func (env : List (Pos × GoType)) (u : TransUnit) : Option FuncDecl0 :=
  match blockRun (toBlockTree u.fdecl.frame env u.rb) with
  | none => none
  | some res => some { u.fdecl with body := (rebuildRes res).2 }

/-- Pass 2 for the functions of one file. -/
def p2Funcs (env : List (Pos × GoType)) : List TransUnit → Option (List FuncDecl0)
  | [] => some []
  | u :: rest =>
    match p2Func env u with
    | none => none
    | some f =>
      match p2Funcs env rest with
      | none => none
      | some fs => some (f :: fs)

/-- Pass 2 for all files of a package. -/
def p2Files (env : List (Pos × GoType)) : List PkgFileU → Option (List PkgFile)
  | [] => some []
  | file :: rest =>
    match p2Funcs env file.units with
    | none => none
    | some fs =>
      match p2Files env rest with
      | none => none
      | some rest2 => some (⟨file.filePath, file.imports, fs⟩ :: rest2)

/-- Embedding of `translatePackage` (`translate.go`): pass 1 over the whole
package; abort on error; skip the remaining phases when no translation point
was recorded; otherwise run type-information-driven pass 2 and set the dirty
flag.  The `typeEnv` of the package stands for the result of the type check
(whose failure would abort here as well); a `none` from pass 2 models a
panic inside nil-check insertion. -/
def translatePackage (pkg : Package) : Except TransErr Package :=
  let (files1, n, err) := p1Files pkg.files
  match err with
  | some e => .error e
  | none =>
    if n == 0 then .ok { pkg with files := stripUnits files1 }
    else
      match p2Files pkg.typeEnv files1 with
      | none => .error ⟨0, "panic in nil check insertion"⟩
      | some files2 => .ok { pkg with files := files2, modified := true }

/-- Go `strings.TrimSuffix` (computed on the character lists). -/
def goTrimSuffix (s suf : String) : String :=
  if suf.data.isSuffixOf s.data then ⟨s.data.take (s.data.length - suf.data.length)⟩ else s

/-- Go `strings.TrimPrefix` (computed on the character lists). -/
def goTrimPre (s pre : String) : String :=
  if pre.data.isPrefixOf s.data then ⟨s.data.drop pre.data.length⟩ else s

/-- State of the import fixer (`importsFixer`): number of rewritten imports
and the collected import errors (`errs`).  The resolved-directory cache is a
memoisation of the resolver and is not modelled. -/
structure FixSt where
  count : Nat
  errs : List TransErr
deriving Repr

/-- A build context (`build.Context.Import` restricted to `FindOnly`):
resolves an import path against a package directory to the source directory
of the imported package, or fails. -/
def BuildCtx := String → String → Option String

/-- Message of an unresolvable import path (`errfAt` in `fixImport`). -/
def msgCannotResolve (path : String) : String :=
  "Cannot resolve import path " ++ path

/-- Embedding of `fixImport` (`fix_imports.go`, draft with error
collection): resolves the import path; on failure records an import error
and reports no rewrite; when the resolved directory is the origin of a
translated package, rewrites the import string to the relative path of the
destination directory and counts the rewrite. -/
def fixImport (ctx : BuildCtx) (transMap : List (String × String)) (fx : FixSt)
    (node : ImportSpec) (pkgDir : String) : FixSt × ImportSpec × Bool :=
  match ctx node.path pkgDir with
  | none =>
    ({ fx with errs := fx.errs ++ [⟨node.pos, msgCannotResolve node.path⟩] }, node, false)
  | some srcDir =>
    match transMap.lookup srcDir with
    | none => (fx, node, false)
    | some destDir =>
      let pre := goTrimSuffix srcDir node.path
      let transPath := goTrimPre destDir pre
      ({ fx with count := fx.count + 1 }, { node with path := transPath }, true)

/-- Fixes the imports of one file, reporting whether any import of the file
was rewritten. -/
def fixFileImports (ctx : BuildCtx) (transMap : List (String × String)) (fx : FixSt)
    (pkgDir : String) : List ImportSpec → FixSt × List ImportSpec × Bool
  | [] => (fx, [], false)
  | node :: rest =>
    let (fx1, node2, hit) := fixImport ctx transMap fx node pkgDir
    let (fx2, rest2, hits) := fixFileImports ctx transMap fx1 pkgDir rest
    (fx2, node2 :: rest2, hit || hits)

/-- Fixes the imports of the files of one package. -/
def fixPackageFiles (ctx : BuildCtx) (transMap : List (String × String)) (fx : FixSt)
    (pkgDir : String) : List PkgFile → FixSt × List PkgFile × Bool
  | [] => (fx, [], false)
  | file :: rest =>
    let (fx1, imps, hit) := fixFileImports ctx transMap fx pkgDir file.imports
    let (fx2, rest2, hits) := fixPackageFiles ctx transMap fx1 pkgDir rest
    (fx2, { file with imports := imps } :: rest2, hit || hits)

/-- Embedding of `fixPackage`: fixes every import spec of every file of the
package, setting the dirty flag whenever an import was rewritten. -/
def fixPackage (ctx : BuildCtx) (transMap : List (String × String)) (fx : FixSt)
    (pkg : Package) : FixSt × Package :=
  let step := fixPackageFiles ctx transMap fx pkg.path pkg.files
  (step.1, { pkg with files := step.2.1, modified := pkg.modified || step.2.2 })

/-- Renders the collected import errors as the unified multi-line diagnostic
(`fixImports`, error branch). -/
def unifiedImportError (errs : List TransErr) : String :=
  match errs with
  | [e] => "Import error while fixing import paths: At " ++ Nat.repr e.pos ++ ": " ++ e.msg
  | _ =>
    Nat.repr errs.length ++ " import error(s) while fixing import paths:" ++
      String.join (errs.map fun e => "\n  " ++ e.msg ++ " at " ++ Nat.repr e.pos)

/-- Runs `fixPackage` over all packages, threading the fixer state. -/
def fixAllPackages (ctx : BuildCtx) (transMap : List (String × String)) (fx : FixSt) :
    List Package → FixSt × List Package
  | [] => (fx, [])
  | pkg :: rest =>
    let (fx1, pkg2) := fixPackage ctx transMap fx pkg
    let (fx2, rest2) := fixAllPackages ctx transMap fx1 rest
    (fx2, pkg2 :: rest2)

/-- Embedding of `fixImports` (draft with error collection): builds the
origin-to-destination map, fixes every package, and either reports the
unified import diagnostic or succeeds. -/
def fixImports (ctx : BuildCtx) (pkgs : List Package) : List Package × Option String :=
  let transMap := pkgs.map fun p => (p.birth, p.path)
  let (fx, pkgs2) := fixAllPackages ctx transMap ⟨0, []⟩ pkgs
  if fx.errs.isEmpty then (pkgs2, none)
  else (pkgs2, some (unifiedImportError fx.errs))

/-- Go `filepath.Base` for slash-separated paths: the characters after the
last slash. -/
def baseName (p : String) : String :=
  ⟨p.data.foldl (fun acc c => if c = '/' then [] else acc ++ [c]) []⟩

/-- Go `filepath.Join` for two slash-separated components. -/
def joinPath (a b : String) : String :=
  a ++ "/" ++ b

/-- Remaps the file paths of a translated package into the destination
directory (`outpath := filepath.Join(pkg.Path, filepath.Base(path))` at the
end of `Translate`). -/
def remapFilePaths (pkg : Package) : Package :=
  { pkg with files := pkg.files.map fun f => { f with filePath := joinPath pkg.path (baseName f.filePath) } }

/-- Translates every package in order, stopping at the first error
(`Translate`, first loop, including the `While translating` context wrap). -/
def translateAll : List Package → Except String (List Package)
  | [] => .ok []
  | pkg :: rest =>
    match translatePackage pkg with
    | .error e => .error ("While translating " ++ pkg.birth ++ ": " ++ e.msg)
    | .ok pkg2 =>
      match translateAll rest with
      | .error msg => .error msg
      | .ok rest2 => .ok (pkg2 :: rest2)

/-- Embedding of `Translate` (`translate.go`): translates every package,
runs the import fixer — whose returned error value the source discards —
and finally remaps the output file paths into the destination directories. -/
def Translate (ctx : BuildCtx) (pkgs : List Package) : Except String (List Package) :=
  match translateAll pkgs with
  | .error msg => .error msg
  | .ok pkgs1 =>
    let fixed := fixImports ctx pkgs1
    .ok (fixed.1.map remapFilePaths)

/-- Numeric value of a decimal digit character. -/
def digitVal (c : Char) : Nat := c.toNat - 48

/-- Reads a digit string back into a number (used to invert `Nat.repr`). -/
def ofDigits : List Char → Nat → Nat
  | [], acc => acc
  | c :: cs, acc => ofDigits cs (acc * 10 + digitVal c)

/-- `Nat.digitChar` is inverted by `digitVal` on decimal digits. -/
theorem digitVal_digitChar (d : Nat) (h : d < 10) : digitVal (Nat.digitChar d) = d := by
  interval_cases d <;> rfl

/-- `Nat.toDigitsCore` prepends the decimal digits of `n`, and `ofDigits`
reads them back. -/
theorem toDigitsCore_ofDigits : ∀ (fuel n : Nat) (ds : List Char) (acc : Nat), n < fuel →
    ∃ k, ofDigits (Nat.toDigitsCore 10 fuel n ds) acc = ofDigits ds (acc * 10 ^ k + n)
      ∧ n < 10 ^ k := by
  intro fuel
  induction fuel with
  | zero => intro n ds acc h; omega
  | succ fuel ih =>
    intro n ds acc h
    simp only [Nat.toDigitsCore]
    by_cases h0 : n / 10 = 0
    · rw [if_pos h0]
      refine ⟨1, ?_, by omega⟩
      have hd : digitVal (Nat.digitChar (n % 10)) = n % 10 :=
        digitVal_digitChar _ (Nat.mod_lt _ (by norm_num))
      simp only [ofDigits, hd]
      have hn : n % 10 = n := by omega
      rw [hn, pow_one]
    · rw [if_neg h0]
      have hlt : n / 10 < fuel := by omega
      obtain ⟨k, hk, hb⟩ := ih (n / 10) (Nat.digitChar (n % 10) :: ds) acc hlt
      have hd : digitVal (Nat.digitChar (n % 10)) = n % 10 :=
        digitVal_digitChar _ (Nat.mod_lt _ (by norm_num))
      refine ⟨k + 1, ?_, ?_⟩
      · rw [hk]
        simp only [ofDigits, hd]
        congr 1
        calc (acc * 10 ^ k + n / 10) * 10 + n % 10
            = acc * (10 ^ k * 10) + (10 * (n / 10) + n % 10) := by ring
          _ = acc * 10 ^ (k + 1) + n := by rw [Nat.div_add_mod]; ring
      · have h2 : (n / 10 + 1) * 10 ≤ 10 ^ k * 10 := Nat.mul_le_mul_right 10 hb
        have h3 : n < (n / 10 + 1) * 10 := by omega
        have h4 : 10 ^ (k + 1) = 10 ^ k * 10 := by ring
        omega

/-- The decimal rendering of a number is read back by `ofDigits`. -/
theorem ofDigits_toDigits (n : Nat) : ofDigits (Nat.toDigits 10 n) 0 = n := by
  obtain ⟨k, h, _⟩ := toDigitsCore_ofDigits (n + 1) n [] 0 (Nat.lt_succ_self n)
  simpa [Nat.toDigits, ofDigits] using h

/-- Decimal rendering of naturals is injective. -/
theorem reprNat_injective (m n : Nat) (h : Nat.repr m = Nat.repr n) : m = n := by
  have h2 : Nat.toDigits 10 m = Nat.toDigits 10 n := by
    have hd := congrArg String.data h
    simpa [Nat.repr, List.asString] using hd
  have h3 := congrArg (fun l => ofDigits l 0) h2
  simpa [ofDigits_toDigits] using h3

/-- Appending to a common front string is injective. -/
theorem strcat_inj (a b : String) (p : String) (h : p ++ a = p ++ b) : a = b := by
  have hd := congrArg String.data h
  simp only [String.data_append] at hd
  exact String.ext (List.append_cancel_left hd)

/-- The name `genErrIdent` gives to the error identifier generated when the
per-block counter is `n`. -/
def errIdentName (n : Nat) : String := "_err" ++ Nat.repr n

/-- Distinct counter values give distinct generated `_errN` names. -/
theorem errIdentName_injective (m n : Nat) (h : errIdentName m = errIdentName n) : m = n :=
  reprNat_injective m n (strcat_inj _ _ _ h)

/-- Splicing before the index right after a front segment. -/
theorem listInsertAt_append (pre post : List Stmt) (s : Stmt) :
    listInsertAt (pre ++ post) pre.length s = pre ++ s :: post := by
  simp [listInsertAt, List.take_left, List.drop_left]

/-- Removing the element right after a front segment. -/
theorem listRemoveAt_append (pre post : List Stmt) (s : Stmt) :
    listRemoveAt (pre ++ s :: post) pre.length = pre ++ post := by
  have h1 : (pre ++ s :: post).take pre.length = pre := by
    simpa using List.take_left pre (s :: post)
  have h2 : (pre ++ s :: post).drop (pre.length + 1) = post := by
    have : pre ++ s :: post = (pre ++ [s]) ++ post := by simp
    rw [this]
    have hl : (pre ++ [s]).length = pre.length + 1 := by simp
    rw [← hl]
    exact List.drop_left _ _
  simp [listRemoveAt, h1, h2]

/-- Looking up the element right after a front segment. -/
theorem get?_append_cons (pre post : List Stmt) (s : Stmt) :
    (pre ++ s :: post).get? pre.length = some s := by
  rw [List.get?_append_right (Nat.le_refl _)]
  simp

/-- Updating the element right after a front segment. -/
theorem set_append_cons (pre post : List Stmt) (s s2 : Stmt) :
    (pre ++ s :: post).set pre.length s2 = pre ++ s2 :: post := by
  induction pre with
  | nil => simp
  | cons a l ih => simp [List.set, ih]

/-- Replacing the last element of a list that ends in a known element. -/
theorem setLastIdent_append (ns : List Ident) (b i : Ident) :
    setLastIdent (ns ++ [b]) i = ns ++ [i] := by
  unfold setLastIdent
  induction ns with
  | nil => simp
  | cons a l ih => simpa [List.set] using ih

/-- Replacing the last element of an expression list that ends in a known
element. -/
theorem setLastExpr_append (es : List Expr) (b e : Expr) :
    setLastExpr (es ++ [b]) e = es ++ [e] := by
  unfold setLastExpr
  induction es with
  | nil => simp
  | cons a l ih => simpa [List.set] using ih

/-- C3: for each non-error return type of the enclosing function, the
zero-value expression synthesized by `zeroValueOf` follows the table of the
specification: `bool`/untyped-bool give the identifier `false`; all signed
and unsigned integer kinds and `uintptr` give the integer literal `0`; the
float kinds give `0.0`; the complex kinds give `0i`; the string kinds give
the empty string literal; `unsafe.Pointer` and untyped-nil give `nil`;
untyped-rune gives the rune literal backslash-zero; slice, pointer,
function, interface, map and channel types give `nil`; struct and array
types, and named types whose underlying type is a struct, give a composite
literal reusing the declared return-type AST node; any other named type
recurses on its underlying type; a tuple aborts (`none` models the panic). -/
theorem trygoC3_zero_value_table :
    (∀ (node : Expr) (pos : Pos) (u : GoType), u.isStruct = false →
      zeroValueOf (.named u) node pos = zeroValueOf u node pos) ∧
    (∀ (node : Expr) (pos : Pos),
      zeroValueOf (.basic .bool) node pos = some (.ident (newIdent "false" pos)) ∧
      zeroValueOf (.basic .untypedBool) node pos = some (.ident (newIdent "false" pos)) ∧
      zeroValueOf (.basic .int) node pos = some (.basicLit .int "0" pos) ∧
      zeroValueOf (.basic .int8) node pos = some (.basicLit .int "0" pos) ∧
      zeroValueOf (.basic .int16) node pos = some (.basicLit .int "0" pos) ∧
      zeroValueOf (.basic .int32) node pos = some (.basicLit .int "0" pos) ∧
      zeroValueOf (.basic .int64) node pos = some (.basicLit .int "0" pos) ∧
      zeroValueOf (.basic .uint) node pos = some (.basicLit .int "0" pos) ∧
      zeroValueOf (.basic .uint8) node pos = some (.basicLit .int "0" pos) ∧
      zeroValueOf (.basic .uint16) node pos = some (.basicLit .int "0" pos) ∧
      zeroValueOf (.basic .uint32) node pos = some (.basicLit .int "0" pos) ∧
      zeroValueOf (.basic .uint64) node pos = some (.basicLit .int "0" pos) ∧
      zeroValueOf (.basic .uintptr) node pos = some (.basicLit .int "0" pos) ∧
      zeroValueOf (.basic .float32) node pos = some (.basicLit .float "0.0" pos) ∧
      zeroValueOf (.basic .float64) node pos = some (.basicLit .float "0.0" pos) ∧
      zeroValueOf (.basic .untypedFloat) node pos = some (.basicLit .float "0.0" pos) ∧
      zeroValueOf (.basic .complex64) node pos = some (.basicLit .imag "0i" pos) ∧
      zeroValueOf (.basic .complex128) node pos = some (.basicLit .imag "0i" pos) ∧
      zeroValueOf (.basic .untypedComplex) node pos = some (.basicLit .imag "0i" pos) ∧
      zeroValueOf (.basic .str) node pos = some (.basicLit .str "\x22\x22" pos) ∧
      zeroValueOf (.basic .untypedString) node pos = some (.basicLit .str "\x22\x22" pos) ∧
      zeroValueOf (.basic .unsafePointer) node pos = some (.ident (newIdent "nil" pos)) ∧
      zeroValueOf (.basic .untypedNil) node pos = some (.ident (newIdent "nil" pos)) ∧
      zeroValueOf (.basic .untypedRune) node pos = some (.basicLit .char "\x27\\0\x27" pos)) ∧
    (∀ (node : Expr) (pos : Pos) (elem key value : GoType) (n : Nat),
      zeroValueOf (.slice elem) node pos = some (.ident (newIdent "nil" pos)) ∧
      zeroValueOf (.pointer elem) node pos = some (.ident (newIdent "nil" pos)) ∧
      zeroValueOf .signature node pos = some (.ident (newIdent "nil" pos)) ∧
      zeroValueOf .interface node pos = some (.ident (newIdent "nil" pos)) ∧
      zeroValueOf (.map key value) node pos = some (.ident (newIdent "nil" pos)) ∧
      zeroValueOf (.chan elem) node pos = some (.ident (newIdent "nil" pos)) ∧
      zeroValueOf .struct node pos = some (.compositeLit node) ∧
      zeroValueOf (.array elem n) node pos = some (.compositeLit node) ∧
      zeroValueOf (.named .struct) node pos = some (.compositeLit node)) ∧
    (∀ (node : Expr) (pos : Pos) (ts : List GoType),
      zeroValueOf (.tuple ts) node pos = none) :=
  ⟨fun node pos u h => by simp [zeroValueOf, h],
   fun _ _ => ⟨rfl, rfl, rfl, rfl, rfl, rfl, rfl, rfl, rfl, rfl, rfl, rfl, rfl, rfl,
     rfl, rfl, rfl, rfl, rfl, rfl, rfl, rfl, rfl, rfl⟩,
   fun _ _ _ _ _ _ => ⟨rfl, rfl, rfl, rfl, rfl, rfl, rfl, rfl, rfl⟩,
   fun _ _ _ => rfl⟩

/-- Witness for C3: the named-type recursion clause applied at a named type
whose underlying type is `int`. -/
theorem trygoC3_zero_value_table_witness :
    GoType.isStruct (.basic .int) = false ∧
    zeroValueOf (.named (.basic .int)) (.ident (newIdent "int" 5)) 9
      = zeroValueOf (.basic .int) (.ident (newIdent "int" 5)) 9 :=
  ⟨rfl, trygoC3_zero_value_table.1 (.ident (newIdent "int" 5)) 9 (.basic .int) rfl⟩

/-- Behaviour of `transValueSpec` on a well-placed translation point: the
trailing placeholder identifier of the host value spec is replaced by the
fresh `_err$n` identifier and exactly the nil-check guard is spliced
immediately after the host statement. -/
theorem transValueSpec_spec (off : Int) (v : Nat) (pre post : List Stmt)
    (tp : TransPoint) (tok : DeclTok) (ns : List Ident) (bIdent : Ident)
    (oty : Option Expr) (vals : List Expr) (sp : Pos) (zeros : List Expr)
    (hoff : (tp.blockIndex : Int) + off = pre.length)
    (hz : zeroRetVals tp.fn sp = some zeros) :
    transValueSpec ⟨pre ++ .varDecl tok ⟨ns ++ [bIdent], oty, vals, sp⟩ :: post, off, v⟩ tp
      = some ⟨pre ++ .varDecl tok ⟨ns ++ [newIdent (errIdentName v) sp], oty, vals, sp⟩
            :: mkNilChkStmt (newIdent (errIdentName v) sp) none zeros :: post,
          off + 1, v + 1⟩ := by
  have hidx : ((tp.blockIndex : Int) + off).toNat = pre.length := by omega
  simp only [transValueSpec, hidx, get?_append_cons, genErrIdent, setLastIdent_append,
    set_append_cons, insertIfNilChkStmtAfter, errIdentName]
  simp only [newIdent, hz]
  have hidx2 : ((tp.blockIndex + 1 : Nat) : Int) + off = ((pre.length + 1 : Nat) : Int) := by
    push_cast
    omega
  simp only [NCI.insertStmtAt, hidx2]
  have h3 : (((pre.length + 1 : Nat) : Int)).toNat = (pre ++ [Stmt.varDecl tok ⟨ns ++ [⟨"_err" ++ Nat.repr v, sp⟩], oty, vals, sp⟩]).length := by
    simp
  rw [h3]
  have hassoc : pre ++ Stmt.varDecl tok ⟨ns ++ [⟨"_err" ++ Nat.repr v, sp⟩], oty, vals, sp⟩ :: post
      = (pre ++ [Stmt.varDecl tok ⟨ns ++ [⟨"_err" ++ Nat.repr v, sp⟩], oty, vals, sp⟩]) ++ post := by
    simp
  rw [hassoc, listInsertAt_append]
  simp

/-- Behaviour of `transAssign` on a `:=` translation point: the trailing
placeholder of the LHS becomes the fresh `_err$n` and the guard is spliced
immediately after the host assignment. -/
theorem transAssign_define_spec (off : Int) (v : Nat) (pre post : List Stmt)
    (tp : TransPoint) (apos : Pos) (es : List Expr) (bExpr : Expr)
    (rhs : List Expr) (zeros : List Expr)
    (hoff : (tp.blockIndex : Int) + off = pre.length)
    (hz : zeroRetVals tp.fn apos = some zeros) :
    transAssign ⟨pre ++ .assign apos (es ++ [bExpr]) .define rhs :: post, off, v⟩ tp
      = some ⟨pre ++ .assign apos (es ++ [.ident (newIdent (errIdentName v) apos)]) .define rhs
            :: mkNilChkStmt (newIdent (errIdentName v) apos) none zeros :: post,
          off + 1, v + 1⟩ := by
  have hidx : ((tp.blockIndex : Int) + off).toNat = pre.length := by omega
  simp only [transAssign, hidx, get?_append_cons, genErrIdent, setLastExpr_append,
    set_append_cons, insertIfNilChkStmtAfter, errIdentName, reduceIte]
  simp only [newIdent, hz]
  have hidx2 : ((tp.blockIndex + 1 : Nat) : Int) + off = ((pre.length + 1 : Nat) : Int) := by
    push_cast
    omega
  simp only [NCI.insertStmtAt, hidx2]
  have h3 : (((pre.length + 1 : Nat) : Int)).toNat
      = (pre ++ [Stmt.assign apos (es ++ [.ident ⟨"_err" ++ Nat.repr v, apos⟩]) .define rhs]).length := by
    simp
  rw [h3]
  have hassoc : pre ++ Stmt.assign apos (es ++ [.ident ⟨"_err" ++ Nat.repr v, apos⟩]) .define rhs :: post
      = (pre ++ [Stmt.assign apos (es ++ [.ident ⟨"_err" ++ Nat.repr v, apos⟩]) .define rhs]) ++ post := by
    simp
  rw [hassoc, listInsertAt_append]
  simp

/-- Behaviour of `transAssign` on an `=` translation point: a declaration
`var _err$n error` is spliced immediately before the host assignment, whose
trailing placeholder becomes `_err$n`, and the guard is spliced after it —
the declare/assign/check three-statement sequence. -/
theorem transAssign_eq_spec (off : Int) (v : Nat) (pre post : List Stmt)
    (tp : TransPoint) (apos : Pos) (es : List Expr) (bExpr : Expr)
    (rhs : List Expr) (zeros : List Expr)
    (hoff : (tp.blockIndex : Int) + off = pre.length)
    (hz : zeroRetVals tp.fn apos = some zeros) :
    transAssign ⟨pre ++ .assign apos (es ++ [bExpr]) .assign rhs :: post, off, v⟩ tp
      = some ⟨pre
            ++ .varDecl .varTok ⟨[newIdent (errIdentName v) apos],
                some (.ident (newIdent "error" apos)), [], apos⟩
            :: .assign apos (es ++ [.ident (newIdent (errIdentName v) apos)]) .assign rhs
            :: mkNilChkStmt (newIdent (errIdentName v) apos) none zeros :: post,
          off + 2, v + 1⟩ := by
  have hidx : ((tp.blockIndex : Int) + off).toNat = pre.length := by omega
  simp only [transAssign, hidx, get?_append_cons, genErrIdent, newIdent, errIdentName]
  rw [if_neg (by decide : ¬(AsgTok.assign = AsgTok.define))]
  simp only [NCI.insertStmtAt, hidx]
  rw [listInsertAt_append pre (Stmt.assign apos (es ++ [bExpr]) .assign rhs :: post)
    (Stmt.varDecl .varTok ⟨[⟨"_err" ++ Nat.repr v, apos⟩], some (.ident ⟨"error", apos⟩), [], apos⟩)]
  have hidx2 : ((tp.blockIndex : Int) + (off + 1)).toNat
      = (pre ++ [Stmt.varDecl .varTok ⟨[⟨"_err" ++ Nat.repr v, apos⟩], some (.ident ⟨"error", apos⟩), [], apos⟩]).length := by
    simp only [List.length_append, List.length_cons, List.length_nil]
    omega
  rw [hidx2]
  have hassoc1 : pre ++ Stmt.varDecl .varTok ⟨[⟨"_err" ++ Nat.repr v, apos⟩], some (.ident ⟨"error", apos⟩), [], apos⟩
        :: Stmt.assign apos (es ++ [bExpr]) .assign rhs :: post
      = (pre ++ [Stmt.varDecl .varTok ⟨[⟨"_err" ++ Nat.repr v, apos⟩], some (.ident ⟨"error", apos⟩), [], apos⟩])
        ++ Stmt.assign apos (es ++ [bExpr]) .assign rhs :: post := by
    simp
  rw [hassoc1, set_append_cons]
  simp only [setLastExpr_append, insertIfNilChkStmtAfter, hz, NCI.insertStmtAt]
  have hidx3 : (((tp.blockIndex + 1 : Nat) : Int) + (off + 1)).toNat
      = ((pre ++ [Stmt.varDecl .varTok ⟨[⟨"_err" ++ Nat.repr v, apos⟩], some (.ident ⟨"error", apos⟩), [], apos⟩])
          ++ [Stmt.assign apos (es ++ [.ident ⟨"_err" ++ Nat.repr v, apos⟩]) .assign rhs]).length := by
    simp only [List.length_append, List.length_cons, List.length_nil]
    push_cast
    omega
  rw [hidx3]
  have hassoc2 : (pre ++ [Stmt.varDecl .varTok ⟨[⟨"_err" ++ Nat.repr v, apos⟩], some (.ident ⟨"error", apos⟩), [], apos⟩])
        ++ Stmt.assign apos (es ++ [.ident ⟨"_err" ++ Nat.repr v, apos⟩]) .assign rhs :: post
      = ((pre ++ [Stmt.varDecl .varTok ⟨[⟨"_err" ++ Nat.repr v, apos⟩], some (.ident ⟨"error", apos⟩), [], apos⟩])
          ++ [Stmt.assign apos (es ++ [.ident ⟨"_err" ++ Nat.repr v, apos⟩]) .assign rhs]) ++ post := by
    simp
  rw [hassoc2, listInsertAt_append]
  simp
  omega

/-- C1: for every `try(f(...))` occurrence in value-spec position or in
assignment position, pass 2 replaces that statement by the same binding in
which the trailing blank identifier is replaced by the fresh error
identifier `_errN` (`errIdentName` of the per-block counter), and exactly
one guard `if _errN != nil { return Z1..Zk, _errN }` is spliced immediately
after the host statement, where `Z1..Zk` are the zero values of the
non-error returns of the enclosing function (`zeroRetVals`); for the `=`
operator an additional `var _errN error` declaration is spliced immediately
before the assignment, giving the declare/assign/check three-statement
sequence. -/
theorem trygoC1_binding_transforms :
    (∀ (off : Int) (v : Nat) (pre post : List Stmt) (tp : TransPoint)
       (tok : DeclTok) (ns : List Ident) (bIdent : Ident) (oty : Option Expr)
       (vals : List Expr) (sp : Pos) (zeros : List Expr),
       (tp.blockIndex : Int) + off = pre.length →
       zeroRetVals tp.fn sp = some zeros →
       transValueSpec ⟨pre ++ .varDecl tok ⟨ns ++ [bIdent], oty, vals, sp⟩ :: post, off, v⟩ tp
         = some ⟨pre ++ .varDecl tok ⟨ns ++ [newIdent (errIdentName v) sp], oty, vals, sp⟩
               :: mkNilChkStmt (newIdent (errIdentName v) sp) none zeros :: post,
             off + 1, v + 1⟩) ∧
    (∀ (off : Int) (v : Nat) (pre post : List Stmt) (tp : TransPoint) (apos : Pos)
       (es : List Expr) (bExpr : Expr) (rhs : List Expr) (zeros : List Expr),
       (tp.blockIndex : Int) + off = pre.length →
       zeroRetVals tp.fn apos = some zeros →
       transAssign ⟨pre ++ .assign apos (es ++ [bExpr]) .define rhs :: post, off, v⟩ tp
         = some ⟨pre ++ .assign apos (es ++ [.ident (newIdent (errIdentName v) apos)]) .define rhs
               :: mkNilChkStmt (newIdent (errIdentName v) apos) none zeros :: post,
             off + 1, v + 1⟩) ∧
    (∀ (off : Int) (v : Nat) (pre post : List Stmt) (tp : TransPoint) (apos : Pos)
       (es : List Expr) (bExpr : Expr) (rhs : List Expr) (zeros : List Expr),
       (tp.blockIndex : Int) + off = pre.length →
       zeroRetVals tp.fn apos = some zeros →
       transAssign ⟨pre ++ .assign apos (es ++ [bExpr]) .assign rhs :: post, off, v⟩ tp
         = some ⟨pre
               ++ .varDecl .varTok ⟨[newIdent (errIdentName v) apos],
                   some (.ident (newIdent "error" apos)), [], apos⟩
               :: .assign apos (es ++ [.ident (newIdent (errIdentName v) apos)]) .assign rhs
               :: mkNilChkStmt (newIdent (errIdentName v) apos) none zeros :: post,
             off + 2, v + 1⟩) :=
  ⟨fun off v pre post tp tok ns bIdent oty vals sp zeros hoff hz =>
     transValueSpec_spec off v pre post tp tok ns bIdent oty vals sp zeros hoff hz,
   fun off v pre post tp apos es bExpr rhs zeros hoff hz =>
     transAssign_define_spec off v pre post tp apos es bExpr rhs zeros hoff hz,
   fun off v pre post tp apos es bExpr rhs zeros hoff hz =>
     transAssign_eq_spec off v pre post tp apos es bExpr rhs zeros hoff hz⟩

/-- A sample enclosing function frame returning `(int, error)`. -/
def sampleFrame : FuncFrame :=
  ⟨[⟨.basic .int, .ident (newIdent "int" 1)⟩, ⟨.named .interface, .ident (newIdent "error" 2)⟩]⟩

/-- A sample inner call `g()`. -/
def sampleCall : Expr := .call (.ident (newIdent "g" 5)) [] 5

/-- Witness for C1: the three transformations applied to concrete one-point
blocks inside a function returning `(int, error)`. -/
theorem trygoC1_binding_transforms_witness :
    (((0 : Nat) : Int) + 0 = (([] : List Stmt).length : Int)) ∧
    zeroRetVals sampleFrame 3 = some [.basicLit .int "0" 3] ∧
    transValueSpec ⟨[.varDecl .varTok ⟨[newIdent "x" 3, newIdent "_" 3], none, [sampleCall], 3⟩], 0, 0⟩
        ⟨.valueSpec, 0, sampleFrame, sampleCall, none, 4⟩
      = some ⟨[.varDecl .varTok ⟨[newIdent "x" 3, newIdent (errIdentName 0) 3], none, [sampleCall], 3⟩,
            mkNilChkStmt (newIdent (errIdentName 0) 3) none [.basicLit .int "0" 3]], 1, 1⟩ ∧
    transAssign ⟨[.assign 3 [.ident (newIdent "x" 3), .ident (newIdent "_" 3)] .define [sampleCall]], 0, 0⟩
        ⟨.assignKind, 0, sampleFrame, sampleCall, none, 4⟩
      = some ⟨[.assign 3 [.ident (newIdent "x" 3), .ident (newIdent (errIdentName 0) 3)] .define [sampleCall],
            mkNilChkStmt (newIdent (errIdentName 0) 3) none [.basicLit .int "0" 3]], 1, 1⟩ ∧
    transAssign ⟨[.assign 3 [.ident (newIdent "x" 3), .ident (newIdent "_" 3)] .assign [sampleCall]], 0, 0⟩
        ⟨.assignKind, 0, sampleFrame, sampleCall, none, 4⟩
      = some ⟨[.varDecl .varTok ⟨[newIdent (errIdentName 0) 3], some (.ident (newIdent "error" 3)), [], 3⟩,
            .assign 3 [.ident (newIdent "x" 3), .ident (newIdent (errIdentName 0) 3)] .assign [sampleCall],
            mkNilChkStmt (newIdent (errIdentName 0) 3) none [.basicLit .int "0" 3]], 2, 1⟩ :=
  ⟨by simp,
   rfl,
   trygoC1_binding_transforms.1 0 0 [] [] ⟨.valueSpec, 0, sampleFrame, sampleCall, none, 4⟩
     .varTok [newIdent "x" 3] (newIdent "_" 3) none [sampleCall] 3 [.basicLit .int "0" 3]
     (by simp) rfl,
   trygoC1_binding_transforms.2.1 0 0 [] [] ⟨.assignKind, 0, sampleFrame, sampleCall, none, 4⟩
     3 [.ident (newIdent "x" 3)] (.ident (newIdent "_" 3)) [sampleCall] [.basicLit .int "0" 3]
     (by simp) rfl,
   trygoC1_binding_transforms.2.2 0 0 [] [] ⟨.assignKind, 0, sampleFrame, sampleCall, none, 4⟩
     3 [.ident (newIdent "x" 3)] (.ident (newIdent "_" 3)) [sampleCall] [.basicLit .int "0" 3]
     (by simp) rfl⟩

/-- Tests whether a semantic type is `*types.Tuple` (the type switch of
`transToplevelExpr`). -/
def GoType.isTuple : GoType → Bool
  | .tuple _ => true
  | _ => false

/-- Number of `_` binders `transToplevelExpr` generates for a resolved inner
call type. -/
def numIgnoresOf : GoType → Nat
  | .tuple tpl => tpl.length - 1
  | _ => 0

/-- Behaviour of `transToplevelExpr` on a well-placed translation point: the
host statement is removed and the combined init-and-guard statement is
spliced at the same position; the init clause binds the inner call to
`numIgnoresOf` blank identifiers followed by `err`. -/
theorem transToplevelExpr_spec (off : Int) (v : Nat) (pre post : List Stmt)
    (host : Stmt) (tp : TransPoint) (ty : GoType) (zeros : List Expr)
    (hoff : (tp.blockIndex : Int) + off = pre.length)
    (hty : tp.callTy = some ty)
    (hz : zeroRetVals tp.fn tp.pos = some zeros) :
    transToplevelExpr ⟨pre ++ host :: post, off, v⟩ tp
      = some ⟨pre ++ mkNilChkStmt (newIdent "err" tp.pos)
            (some (.assign tp.pos
              ((List.range (numIgnoresOf ty)).map (fun _ => Expr.ident (newIdent "_" tp.pos))
                ++ [.ident (newIdent "err" tp.pos)])
              .define [tp.call]))
            zeros :: post,
          off, v⟩ := by
  have hidx : ((tp.blockIndex : Int) + off).toNat = pre.length := by omega
  simp only [transToplevelExpr, NCI.removeStmtAt, hidx, listRemoveAt_append, hty]
  simp only [insertIfNilChkStmtAfter, newIdent, hz, NCI.insertStmtAt]
  have hidx2 : (((tp.blockIndex + 1 : Nat) : Int) + (off - 1)).toNat = pre.length := by
    push_cast
    omega
  rw [hidx2, listInsertAt_append]
  have hoffeq : off - 1 + 1 = off := by omega
  rw [hoffeq]
  cases ty <;> simp [numIgnoresOf]

/-- C2: for every top-level expression statement `try(f(...))`, pass 2
removes the original statement and splices at the same position the single
statement `if _, ..., err := f(...); err != nil { return Z1..Zk, err }`
whose init clause has exactly `m` blank identifiers before `err`, where `m`
is the arity of the resolved tuple type of the inner call minus one; when
the inner call returns just `error` (a non-tuple type), `m = 0` and the
init clause is `err := f(...)`. -/
theorem trygoC2_toplevel_call_transform :
    (∀ (off : Int) (v : Nat) (pre post : List Stmt) (host : Stmt)
       (tp : TransPoint) (tpl : List GoType) (zeros : List Expr),
       (tp.blockIndex : Int) + off = pre.length →
       tp.callTy = some (.tuple tpl) →
       zeroRetVals tp.fn tp.pos = some zeros →
       transToplevelExpr ⟨pre ++ host :: post, off, v⟩ tp
         = some ⟨pre ++ mkNilChkStmt (newIdent "err" tp.pos)
               (some (.assign tp.pos
                 ((List.range (tpl.length - 1)).map (fun _ => Expr.ident (newIdent "_" tp.pos))
                   ++ [.ident (newIdent "err" tp.pos)])
                 .define [tp.call]))
               zeros :: post,
             off, v⟩) ∧
    (∀ (off : Int) (v : Nat) (pre post : List Stmt) (host : Stmt)
       (tp : TransPoint) (ty : GoType) (zeros : List Expr),
       (tp.blockIndex : Int) + off = pre.length →
       tp.callTy = some ty →
       ty.isTuple = false →
       zeroRetVals tp.fn tp.pos = some zeros →
       transToplevelExpr ⟨pre ++ host :: post, off, v⟩ tp
         = some ⟨pre ++ mkNilChkStmt (newIdent "err" tp.pos)
               (some (.assign tp.pos [.ident (newIdent "err" tp.pos)] .define [tp.call]))
               zeros :: post,
             off, v⟩) := by
  constructor
  · intro off v pre post host tp tpl zeros hoff hty hz
    simpa [numIgnoresOf] using transToplevelExpr_spec off v pre post host tp (.tuple tpl) zeros hoff hty hz
  · intro off v pre post host tp ty zeros hoff hty hnt hz
    have h := transToplevelExpr_spec off v pre post host tp ty zeros hoff hty hz
    have hm : numIgnoresOf ty = 0 := by
      cases ty <;> simp_all [GoType.isTuple, numIgnoresOf]
    rw [hm] at h
    simpa using h

/-- Witness for C2: a top-level `try(g())` point whose inner call resolves to
the tuple `(int, error)` (one blank identifier) and one resolving to plain
`error` (no blank identifier), inside a function returning `(int, error)`. -/
theorem trygoC2_toplevel_call_transform_witness :
    (((0 : Nat) : Int) + 0 = (([] : List Stmt).length : Int)) ∧
    GoType.isTuple (.named .interface) = false ∧
    transToplevelExpr ⟨[.exprStmt sampleCall], 0, 0⟩
        ⟨.toplevelCall, 0, sampleFrame, sampleCall,
          some (.tuple [.basic .int, .named .interface]), 5⟩
      = some ⟨[mkNilChkStmt (newIdent "err" 5)
            (some (.assign 5 [.ident (newIdent "_" 5), .ident (newIdent "err" 5)] .define [sampleCall]))
            [.basicLit .int "0" 5]], 0, 0⟩ ∧
    transToplevelExpr ⟨[.exprStmt sampleCall], 0, 0⟩
        ⟨.toplevelCall, 0, sampleFrame, sampleCall, some (.named .interface), 5⟩
      = some ⟨[mkNilChkStmt (newIdent "err" 5)
            (some (.assign 5 [.ident (newIdent "err" 5)] .define [sampleCall]))
            [.basicLit .int "0" 5]], 0, 0⟩ := by
  refine ⟨by simp, rfl, ?_, ?_⟩
  · have h := trygoC2_toplevel_call_transform.1 0 0 [] [] (.exprStmt sampleCall)
      ⟨.toplevelCall, 0, sampleFrame, sampleCall, some (.tuple [.basic .int, .named .interface]), 5⟩
      [.basic .int, .named .interface] [.basicLit .int "0" 5] (by simp) rfl rfl
    simpa [List.range] using h
  · exact trygoC2_toplevel_call_transform.2 0 0 [] [] (.exprStmt sampleCall)
      ⟨.toplevelCall, 0, sampleFrame, sampleCall, some (.named .interface), 5⟩
      (.named .interface) [.basicLit .int "0" 5] (by simp) rfl rfl rfl

/-- `transValueSpec` consumes exactly one fresh-identifier counter value. -/
theorem transValueSpec_varID (nci : NCI) (tp : TransPoint) (nci2 : NCI)
    (h : transValueSpec nci tp = some nci2) : nci2.varID = nci.varID + 1 := by
  unfold transValueSpec insertIfNilChkStmtAfter at h
  dsimp only at h
  repeat' split at h
  all_goals simp only [Option.some.injEq, reduceCtorEq] at h
  all_goals subst h
  all_goals simp [NCI.insertStmtAt, genErrIdent]

/-- `transAssign` consumes exactly one fresh-identifier counter value. -/
theorem transAssign_varID (nci : NCI) (tp : TransPoint) (nci2 : NCI)
    (h : transAssign nci tp = some nci2) : nci2.varID = nci.varID + 1 := by
  unfold transAssign insertIfNilChkStmtAfter at h
  dsimp only at h
  repeat' split at h
  all_goals simp only [Option.some.injEq, reduceCtorEq] at h
  all_goals subst h
  all_goals simp [NCI.insertStmtAt, genErrIdent]

/-- `transToplevelExpr` does not touch the fresh-identifier counter (its
`err` identifier is a plain `newIdent`). -/
theorem transToplevelExpr_varID (nci : NCI) (tp : TransPoint) (nci2 : NCI)
    (h : transToplevelExpr nci tp = some nci2) : nci2.varID = nci.varID := by
  unfold transToplevelExpr insertIfNilChkStmtAfter at h
  dsimp only at h
  repeat' split at h
  all_goals simp only [Option.some.injEq, reduceCtorEq] at h
  all_goals subst h
  all_goals simp [NCI.insertStmtAt, NCI.removeStmtAt]

/-- `insertNilCheck` never decreases the fresh-identifier counter. -/
theorem insertNilCheck_varID_mono (nci : NCI) (tp : TransPoint) (nci2 : NCI)
    (h : insertNilCheck nci tp = some nci2) : nci.varID ≤ nci2.varID := by
  unfold insertNilCheck at h
  split at h
  · exact Nat.le_of_lt (by simp [transValueSpec_varID nci tp nci2 h])
  · exact Nat.le_of_lt (by simp [transAssign_varID nci tp nci2 h])
  · exact Nat.le_of_eq (transToplevelExpr_varID nci tp nci2 h).symm
  · exact absurd h (by simp)

/-- A value-spec or assignment point advances the counter by exactly one. -/
theorem insertNilCheck_varID_gen (nci : NCI) (tp : TransPoint) (nci2 : NCI)
    (hk : tp.kind = .valueSpec ∨ tp.kind = .assignKind)
    (h : insertNilCheck nci tp = some nci2) : nci2.varID = nci.varID + 1 := by
  unfold insertNilCheck at h
  rcases hk with hk | hk <;> rw [hk] at h
  · exact transValueSpec_varID nci tp nci2 h
  · exact transAssign_varID nci tp nci2 h

/-- `runPoints` never decreases the fresh-identifier counter. -/
theorem runPoints_varID_mono (pts : List TransPoint) : ∀ (nci nci2 : NCI),
    runPoints nci pts = some nci2 → nci.varID ≤ nci2.varID := by
  induction pts with
  | nil =>
    intro nci nci2 h
    simp only [runPoints, Option.some.injEq] at h
    exact h ▸ Nat.le_refl _
  | cons tp rest ih =>
    intro nci nci2 h
    simp only [runPoints] at h
    cases heq : insertNilCheck nci tp with
    | none =>
      rw [heq] at h
      exact absurd h (by simp)
    | some nmid =>
      rw [heq] at h
      exact Nat.le_trans (insertNilCheck_varID_mono nci tp nmid heq) (ih nmid nci2 h)

/-- A host statement `var x, _ = g()` at position 11. -/
def cexHostA : Stmt :=
  .varDecl .varTok ⟨[newIdent "x" 11, newIdent "_" 11], none, [sampleCall], 11⟩

/-- A host statement `var y, _ = g()` at position 21. -/
def cexHostB : Stmt :=
  .varDecl .varTok ⟨[newIdent "y" 21, newIdent "_" 21], none, [sampleCall], 21⟩

/-- A root block containing only `cexHostA` and its translation point. -/
def cexBlockA : BlockTree :=
  ⟨10, [cexHostA], [⟨.valueSpec, 0, sampleFrame, sampleCall, none, 12⟩], []⟩

/-- A second, distinct root block containing only `cexHostB` and its
translation point. -/
def cexBlockB : BlockTree :=
  ⟨20, [cexHostB], [⟨.valueSpec, 0, sampleFrame, sampleCall, none, 22⟩], []⟩

/-- Counterexample for C6: two `try()` translation points hosted in two
different blocks both receive the generated error identifier named `_err0`,
because `block` resets the per-block counter (`nci.varID = 0`) on entering
every block.  The claim that points in distinct blocks never share a
generated `_errN` identifier name is therefore false. -/
theorem trygoC6_counterexample :
    nciTranslate [cexBlockA, cexBlockB]
      = some [⟨10, [.varDecl .varTok ⟨[newIdent "x" 11, newIdent (errIdentName 0) 11],
                  none, [sampleCall], 11⟩,
                mkNilChkStmt (newIdent (errIdentName 0) 11) none [.basicLit .int "0" 11]], []⟩,
              ⟨20, [.varDecl .varTok ⟨[newIdent "y" 21, newIdent (errIdentName 0) 21],
                  none, [sampleCall], 21⟩,
                mkNilChkStmt (newIdent (errIdentName 0) 21) none [.basicLit .int "0" 21]], []⟩]
    ∧ (newIdent (errIdentName 0) 11).name = (newIdent (errIdentName 0) 21).name :=
  ⟨rfl, rfl⟩

/-- C6 (amended): the fresh `_errN` identifiers are generated from a
per-block counter, so two value-spec or assignment translation points
processed within the *same* block never share a generated identifier name
(the counter strictly increases between them); across different blocks the
counter is reset to 0 by `block`, so points in distinct blocks may receive
the same name.  The first conjunct states that `genErrIdent` hands out the
name `errIdentName` of the current counter and bumps the counter; the second
states name distinctness for any two generating points of one block run. -/
theorem trygoC6_same_block_distinct_err_idents :
    (∀ (nci : NCI) (pos : Pos),
       (genErrIdent nci pos).1.name = errIdentName nci.varID
       ∧ (genErrIdent nci pos).2.varID = nci.varID + 1) ∧
    (∀ (nci : NCI) (p q : TransPoint) (mid : List TransPoint) (nci1 nci2 nci3 : NCI),
       (p.kind = .valueSpec ∨ p.kind = .assignKind) →
       (q.kind = .valueSpec ∨ q.kind = .assignKind) →
       insertNilCheck nci p = some nci1 →
       runPoints nci1 mid = some nci2 →
       insertNilCheck nci2 q = some nci3 →
       errIdentName nci.varID ≠ errIdentName nci2.varID) := by
  constructor
  · intro nci pos
    exact ⟨rfl, rfl⟩
  · intro nci p q mid nci1 nci2 nci3 hp hq h1 hmid h2
    intro heq
    have hv := errIdentName_injective _ _ heq
    have hs1 : nci1.varID = nci.varID + 1 := insertNilCheck_varID_gen nci p nci1 hp h1
    have hs2 : nci1.varID ≤ nci2.varID := runPoints_varID_mono mid nci1 nci2 hmid
    omega

/-- A host statement `var y, _ = g()` at position 13 (second statement of
the witness block). -/
def cexHostB2 : Stmt :=
  .varDecl .varTok ⟨[newIdent "y" 13, newIdent "_" 13], none, [sampleCall], 13⟩

/-- Witness for the amended C6: two value-spec points of the same two-statement
block receive `_err0` and `_err1`. -/
theorem trygoC6_same_block_distinct_err_idents_witness :
    (TransKind.valueSpec = TransKind.valueSpec ∨ TransKind.valueSpec = TransKind.assignKind) ∧
    errIdentName 0 ≠ errIdentName 1 := by
  refine ⟨Or.inl rfl, ?_⟩
  have h := trygoC6_same_block_distinct_err_idents.2
    ⟨[cexHostA, cexHostB2], 0, 0⟩
    ⟨.valueSpec, 0, sampleFrame, sampleCall, none, 12⟩
    ⟨.valueSpec, 1, sampleFrame, sampleCall, none, 14⟩
    []
    ⟨[.varDecl .varTok ⟨[newIdent "x" 11, newIdent (errIdentName 0) 11], none, [sampleCall], 11⟩,
      mkNilChkStmt (newIdent (errIdentName 0) 11) none [.basicLit .int "0" 11],
      cexHostB2], 1, 1⟩
    ⟨[.varDecl .varTok ⟨[newIdent "x" 11, newIdent (errIdentName 0) 11], none, [sampleCall], 11⟩,
      mkNilChkStmt (newIdent (errIdentName 0) 11) none [.basicLit .int "0" 11],
      cexHostB2], 1, 1⟩
    ⟨[.varDecl .varTok ⟨[newIdent "x" 11, newIdent (errIdentName 0) 11], none, [sampleCall], 11⟩,
      mkNilChkStmt (newIdent (errIdentName 0) 11) none [.basicLit .int "0" 11],
      .varDecl .varTok ⟨[newIdent "y" 13, newIdent (errIdentName 1) 13], none, [sampleCall], 13⟩,
      mkNilChkStmt (newIdent (errIdentName 1) 13) none [.basicLit .int "0" 13]], 2, 2⟩
    (Or.inl rfl) (Or.inl rfl) rfl rfl rfl
  exact h

/-- Tests whether an expression is a call expression (`*ast.CallExpr`). -/
def Expr.isCallE : Expr → Bool
  | .call _ _ _ => true
  | _ => false

/-- Tests whether the last declared result type of a function is the bare
identifier `error` (the final check of `checkTryCall`). -/
def lastIsErrorIdent (rets : List Expr) : Bool :=
  match rets.getLast? with
  | some (.ident e) => e.name == "error"
  | _ => false

/-- C4, parts 1 to 4: each validation failure of `checkTryCall` aborts with
a diagnostic carrying the position of the offending `try()` call node:
wrong argument count, non-call argument, use outside any function, and an
enclosing function that returns nothing or whose last return type is not
the identifier `error`. -/
theorem checkTryCall_errors :
    (∀ (funcs : List FuncType) (args : List Expr) (ipos cpos : Pos),
       args.length ≠ 1 →
       checkTryCall funcs (.call (.ident (newIdent "try" ipos)) args cpos)
         = .bad ⟨cpos, msgTakes1 args.length⟩) ∧
    (∀ (funcs : List FuncType) (arg : Expr) (ipos cpos : Pos),
       arg.isCallE = false →
       checkTryCall funcs (.call (.ident (newIdent "try" ipos)) [arg] cpos)
         = .bad ⟨cpos, msgNotCall⟩) ∧
    (∀ (ifn : Expr) (iargs : List Expr) (ipos jpos cpos : Pos),
       checkTryCall [] (.call (.ident (newIdent "try" ipos)) [.call ifn iargs jpos] cpos)
         = .bad ⟨cpos, msgOutsideFunc⟩) ∧
    (∀ (rest : List FuncType) (ifn : Expr) (iargs : List Expr) (ipos jpos cpos : Pos),
       checkTryCall (⟨none⟩ :: rest) (.call (.ident (newIdent "try" ipos)) [.call ifn iargs jpos] cpos)
         = .bad ⟨cpos, msgReturnsNothing⟩ ∧
       checkTryCall (⟨some []⟩ :: rest) (.call (.ident (newIdent "try" ipos)) [.call ifn iargs jpos] cpos)
         = .bad ⟨cpos, msgReturnsNothing⟩) ∧
    (∀ (rest : List FuncType) (rets : List Expr) (ifn : Expr) (iargs : List Expr)
       (ipos jpos cpos : Pos),
       rets ≠ [] →
       lastIsErrorIdent rets = false →
       checkTryCall (⟨some rets⟩ :: rest) (.call (.ident (newIdent "try" ipos)) [.call ifn iargs jpos] cpos)
         = .bad ⟨cpos, msgLastNotError⟩) := by
  refine ⟨?_, ?_, ?_, ?_, ?_⟩
  · intro funcs args ipos cpos h
    simp [checkTryCall, newIdent, h]
  · intro funcs arg ipos cpos h
    cases arg <;> simp_all [checkTryCall, newIdent, Expr.isCallE]
  · intro ifn iargs ipos jpos cpos
    simp [checkTryCall, newIdent]
  · intro rest ifn iargs ipos jpos cpos
    constructor <;> simp [checkTryCall, newIdent]
  · intro rest rets ifn iargs ipos jpos cpos hne hlast
    unfold lastIsErrorIdent at hlast
    simp only [checkTryCall, newIdent]
    have hne2 : rets.isEmpty = false := by
      cases rets with
      | nil => exact absurd rfl hne
      | cons a l => rfl
    simp only [hne2]
    cases hget : rets.getLast? with
    | none =>
      rw [List.getLast?_eq_none_iff] at hget
      exact absurd hget hne
    | some e =>
      rw [hget] at hlast
      cases e <;> simp_all

/-- A top-level expression statement that is not a translatable `try()`
call but still contains one surfaces the not-translated diagnostic at the
position of the stray `try` identifier. -/
theorem visitToplevelExpr_stray (funcs : List FuncType) (st : P1S) (e : Expr) (p : Pos)
    (hst : st.err = none)
    (hchk : checkTryCall funcs e = .notTry)
    (hfind : findTryE e = some p) :
    (visitToplevelExprM funcs st e).err = some ⟨p, msgNotTranslated⟩ := by
  simp [visitToplevelExprM, eliminateTryCallM, hchk, hst, hfind, setStray]

/-- An assignment whose single RHS expression is not itself a `try()` call
but contains one (a nested/inline use) surfaces the not-translated
diagnostic at the position of the stray `try` identifier. -/
theorem processStmt_assign_stray (funcs : List FuncType) (st : P1S) (apos : Pos)
    (lhs : List Expr) (r : Expr) (p : Pos)
    (hst : st.err = none)
    (hchk : checkTryCall funcs r = .notTry)
    (hfind : findTryL (lhs ++ [r]) = some p) :
    (processStmt funcs st (.assign apos lhs .define [r])).err = some ⟨p, msgNotTranslated⟩ := by
  simp [processStmt, visitAssignM, visitAssignNC, eliminateTryCallM, hchk, hst,
    assignStray, hfind, setStray]

/-- A compound assignment whose single RHS is not itself a `try()` call is
split silently: the error and the translation count are left unchanged, and
the RHS is moved verbatim into the spliced `$tmp := rhs` definition — which
is never walked again, so a `try()` call nested inside the RHS escapes both
translation and the stray-try detection. -/
theorem visitAssign_compound_silent (funcs : List FuncType) (st : P1S) (idx : Nat)
    (apos : Pos) (lhs : List Expr) (tok : AsgTok) (r : Expr)
    (h1 : tok ≠ .define) (h2 : tok ≠ .assign)
    (hchk : checkTryCall funcs r = .notTry) :
    (visitAssignM funcs st idx apos lhs tok [r]).1.err = st.err
    ∧ (visitAssignM funcs st idx apos lhs tok [r]).1.numTrans = st.numTrans
    ∧ (visitAssignM funcs st idx apos lhs tok [r]).2.1
        = [.assign apos [.ident (newIdent ("_" ++ Nat.repr st.varID) 0)] .define [r]] := by
  refine ⟨?_, ?_, ?_⟩ <;>
    simp [visitAssignM, visitAssignNC, eliminateTryCallM, hchk, h1, h2]

/-- C4 (amended): each of the first four conditions makes pass 1 stop and
abort the package with a diagnostic carrying the position of the offending
node: a `try()` call with an argument count different from one; a `try()`
call whose sole argument is not a call expression; a `try()` call outside
any function; an enclosing function that returns nothing (nil or empty
result list) or whose last return type is not the identifier `error`.  A
`try()` call remaining in an unsupported expression position is reported as
not translated only where the generic walk still visits it (a non-call
top-level expression statement, a `:=`/`=` assignment); a `try()` nested in
the RHS of a compound assignment escapes detection: the statement is split
into `$tmp := rhs; lhs op= $tmp`, the split-off definition is never walked
again, and pass 1 finishes with no diagnostic and no translation point. -/
theorem trygoC4_validation_errors :
    (∀ (funcs : List FuncType) (args : List Expr) (ipos cpos : Pos),
       args.length ≠ 1 →
       checkTryCall funcs (.call (.ident (newIdent "try" ipos)) args cpos)
         = .bad ⟨cpos, msgTakes1 args.length⟩) ∧
    (∀ (funcs : List FuncType) (arg : Expr) (ipos cpos : Pos),
       arg.isCallE = false →
       checkTryCall funcs (.call (.ident (newIdent "try" ipos)) [arg] cpos)
         = .bad ⟨cpos, msgNotCall⟩) ∧
    (∀ (ifn : Expr) (iargs : List Expr) (ipos jpos cpos : Pos),
       checkTryCall [] (.call (.ident (newIdent "try" ipos)) [.call ifn iargs jpos] cpos)
         = .bad ⟨cpos, msgOutsideFunc⟩) ∧
    (∀ (rest : List FuncType) (ifn : Expr) (iargs : List Expr) (ipos jpos cpos : Pos),
       checkTryCall (⟨none⟩ :: rest) (.call (.ident (newIdent "try" ipos)) [.call ifn iargs jpos] cpos)
         = .bad ⟨cpos, msgReturnsNothing⟩ ∧
       checkTryCall (⟨some []⟩ :: rest) (.call (.ident (newIdent "try" ipos)) [.call ifn iargs jpos] cpos)
         = .bad ⟨cpos, msgReturnsNothing⟩) ∧
    (∀ (rest : List FuncType) (rets : List Expr) (ifn : Expr) (iargs : List Expr)
       (ipos jpos cpos : Pos),
       rets ≠ [] →
       lastIsErrorIdent rets = false →
       checkTryCall (⟨some rets⟩ :: rest) (.call (.ident (newIdent "try" ipos)) [.call ifn iargs jpos] cpos)
         = .bad ⟨cpos, msgLastNotError⟩) ∧
    (∀ (funcs : List FuncType) (st : P1S) (e : Expr) (p : Pos),
       st.err = none →
       checkTryCall funcs e = .notTry →
       findTryE e = some p →
       (visitToplevelExprM funcs st e).err = some ⟨p, msgNotTranslated⟩) ∧
    (∀ (funcs : List FuncType) (st : P1S) (apos : Pos) (lhs : List Expr) (r : Expr) (p : Pos),
       st.err = none →
       checkTryCall funcs r = .notTry →
       findTryL (lhs ++ [r]) = some p →
       (processStmt funcs st (.assign apos lhs .define [r])).err = some ⟨p, msgNotTranslated⟩) ∧
    (∀ (funcs : List FuncType) (st : P1S) (idx : Nat) (apos : Pos) (lhs : List Expr)
       (tok : AsgTok) (r : Expr),
       tok ≠ .define →
       tok ≠ .assign →
       checkTryCall funcs r = .notTry →
       (visitAssignM funcs st idx apos lhs tok [r]).1.err = st.err
       ∧ (visitAssignM funcs st idx apos lhs tok [r]).1.numTrans = st.numTrans
       ∧ (visitAssignM funcs st idx apos lhs tok [r]).2.1
           = [.assign apos [.ident (newIdent ("_" ++ Nat.repr st.varID) 0)] .define [r]]) :=
  ⟨checkTryCall_errors.1, checkTryCall_errors.2.1, checkTryCall_errors.2.2.1,
   checkTryCall_errors.2.2.2.1, checkTryCall_errors.2.2.2.2,
   fun funcs st e p hst hchk hfind => visitToplevelExpr_stray funcs st e p hst hchk hfind,
   fun funcs st apos lhs r p hst hchk hfind =>
     processStmt_assign_stray funcs st apos lhs r p hst hchk hfind,
   fun funcs st idx apos lhs tok r h1 h2 hchk =>
     visitAssign_compound_silent funcs st idx apos lhs tok r h1 h2 hchk⟩

/-- The empty pass-1 block state. -/
def st0 : P1S := ⟨[], 0, 0, [], [], none⟩

/-- A function-type stack with one enclosing function returning
`(int, error)` (syntactic result nodes). -/
def funcs1 : List FuncType :=
  [⟨some [.ident (newIdent "int" 1), .ident (newIdent "error" 2)]⟩]

/-- The expression `1 + try(g())` with the `try` identifier at position 31. -/
def strayExpr : Expr :=
  .binary .add (.basicLit .int "1" 30) (.call (.ident (newIdent "try" 31)) [sampleCall] 32)

/-- Witness for the amended C4: the five validation failures, the two
stray-try positions, and the silent compound split, evaluated at concrete
inputs. -/
theorem trygoC4_validation_errors_witness :
    (([] : List Expr).length ≠ 1) ∧
    checkTryCall [] (.call (.ident (newIdent "try" 7)) [] 7) = .bad ⟨7, msgTakes1 0⟩ ∧
    (Expr.isCallE (.basicLit .int "42" 8) = false) ∧
    checkTryCall [] (.call (.ident (newIdent "try" 7)) [.basicLit .int "42" 8] 7)
      = .bad ⟨7, msgNotCall⟩ ∧
    checkTryCall [] (.call (.ident (newIdent "try" 7)) [sampleCall] 7)
      = .bad ⟨7, msgOutsideFunc⟩ ∧
    checkTryCall [⟨none⟩] (.call (.ident (newIdent "try" 7)) [sampleCall] 7)
      = .bad ⟨7, msgReturnsNothing⟩ ∧
    ([Expr.ident (newIdent "int" 9)] ≠ ([] : List Expr)) ∧
    lastIsErrorIdent [.ident (newIdent "int" 9)] = false ∧
    checkTryCall [⟨some [.ident (newIdent "int" 9)]⟩] (.call (.ident (newIdent "try" 7)) [sampleCall] 7)
      = .bad ⟨7, msgLastNotError⟩ ∧
    (st0.err = none) ∧
    checkTryCall [] strayExpr = .notTry ∧
    findTryE strayExpr = some 31 ∧
    (visitToplevelExprM [] st0 strayExpr).err = some ⟨31, msgNotTranslated⟩ ∧
    findTryL ([.ident (newIdent "y" 29)] ++ [strayExpr]) = some 31 ∧
    (processStmt [] st0 (.assign 29 [.ident (newIdent "y" 29)] .define [strayExpr])).err
      = some ⟨31, msgNotTranslated⟩ ∧
    (AsgTok.addAssign ≠ AsgTok.define ∧ AsgTok.addAssign ≠ AsgTok.assign) ∧
    checkTryCall funcs1 strayExpr = .notTry ∧
    ((visitAssignM funcs1 st0 0 50 [.ident (newIdent "x" 50)] .addAssign [strayExpr]).1.err
       = st0.err
     ∧ (visitAssignM funcs1 st0 0 50 [.ident (newIdent "x" 50)] .addAssign [strayExpr]).1.numTrans
         = st0.numTrans
     ∧ (visitAssignM funcs1 st0 0 50 [.ident (newIdent "x" 50)] .addAssign [strayExpr]).2.1
         = [.assign 50 [.ident (newIdent ("_" ++ Nat.repr st0.varID) 0)] .define [strayExpr]]) :=
  ⟨by simp,
   trygoC4_validation_errors.1 [] [] 7 7 (by simp),
   rfl,
   trygoC4_validation_errors.2.1 [] (.basicLit .int "42" 8) 7 7 rfl,
   trygoC4_validation_errors.2.2.1 (.ident (newIdent "g" 5)) [] 5 7 7,
   (trygoC4_validation_errors.2.2.2.1 [] (.ident (newIdent "g" 5)) [] 5 7 7).1,
   by simp,
   rfl,
   trygoC4_validation_errors.2.2.2.2.1 [] [.ident (newIdent "int" 9)]
     (.ident (newIdent "g" 5)) [] 5 7 7 (by simp) rfl,
   rfl,
   rfl,
   rfl,
   trygoC4_validation_errors.2.2.2.2.2.1 [] st0 strayExpr 31 rfl rfl rfl,
   rfl,
   trygoC4_validation_errors.2.2.2.2.2.2.1 [] st0 29 [.ident (newIdent "y" 29)] strayExpr 31
     rfl rfl rfl,
   ⟨by decide, by decide⟩,
   rfl,
   trygoC4_validation_errors.2.2.2.2.2.2.2 funcs1 st0 0 50 [.ident (newIdent "x" 50)]
     .addAssign strayExpr (by decide) (by decide) rfl⟩

/-- A function whose body is the compound assignment `x += 1 + try(g())`. -/
def c4Func : FuncDecl0 :=
  ⟨⟨some [.ident (newIdent "int" 1), .ident (newIdent "error" 2)]⟩, sampleFrame, 49,
   [.assign 50 [.ident (newIdent "x" 50)] .addAssign [strayExpr]]⟩

/-- A package whose only statement is `x += 1 + try(g())`. -/
def c4Pkg : Package :=
  NewPackage [⟨"/src/e/e.go", [], [c4Func]⟩] "/src/e" "/out/e" []

/-- Counterexample for C4: the `try()` call nested in the RHS of the
compound assignment `x += 1 + try(g())` remains after pass 1 in an
unsupported expression position, yet no diagnostic is produced and the
package is not aborted.  Pass 1 splits the statement into
`_0 := 1 + try(g()); x += _0`, never walks the split-off definition again,
and finishes with no error and no translation point; `translatePackage`
then succeeds, emitting the stray `try()` into the output. -/
theorem trygoC4_counterexample :
    processStmt funcs1 st0 (.assign 50 [.ident (newIdent "x" 50)] .addAssign [strayExpr])
      = ⟨[.assign 50 [.ident (newIdent "_0" 0)] .define [strayExpr],
          .assign 50 [.ident (newIdent "x" 50)] .addAssign [.ident (newIdent "_0" 0)]],
         1, 0, [], [], none⟩
    ∧ findTryE strayExpr = some 31
    ∧ translatePackage c4Pkg
        = .ok { c4Pkg with files :=
            [⟨"/src/e/e.go", [],
              [{ c4Func with body :=
                  [.assign 50 [.ident (newIdent "_0" 0)] .define [strayExpr],
                   .assign 50 [.ident (newIdent "x" 50)] .addAssign [.ident (newIdent "_0" 0)]] }]⟩] } :=
  ⟨rfl, rfl, rfl⟩

/-- The expression `try(g())` with the `try` identifier at position 41 and
the call node at position 42. -/
def tryCallG : Expr :=
  .call (.ident (newIdent "try" 41)) [sampleCall] 42

/-- Counterexample for C5: the compound assignment `x += try(g())` at the
top level of a block is not rejected by pass 1.  Processing it yields no
error, records one translation point, and splits the statement into
`_0, _ := g()` followed by `x += _0`. -/
theorem trygoC5_counterexample :
    processStmt funcs1 st0 (.assign 40 [.ident (newIdent "x" 40)] .addAssign [tryCallG])
      = ⟨[.assign 40 [.ident (newIdent "_0" 0), .ident (newIdent "_" 40)] .define [sampleCall],
          .assign 40 [.ident (newIdent "x" 40)] .addAssign [.ident (newIdent "_0" 0)]],
         1, 1, [⟨.assignKind, 0, sampleCall, 42⟩], [], none⟩
    ∧ (processStmt funcs1 st0 (.assign 40 [.ident (newIdent "x" 40)] .addAssign [tryCallG])).err
        = none :=
  ⟨rfl, rfl⟩

/-- C5 (amended): a compound assignment with a single RHS at the top level
of a block-like node is not rejected; it is translated by splitting it into
two steps: the definition `$tmp := rhs` is spliced before it (and visited
recursively, so a `try()` call in the RHS is eliminated there and becomes a
new `:=`-kind translation point), and the compound assignment is rewritten
to use `$tmp`.  No error is surfaced by the compound handling itself. -/
theorem trygoC5_compound_assign_split :
    ∀ (funcs : List FuncType) (st : P1S) (idx : Nat) (apos : Pos) (lhs : List Expr)
      (tok : AsgTok) (r inner : Expr),
      tok ≠ .define →
      tok ≠ .assign →
      checkTryCall funcs r = .ok inner →
      visitAssignM funcs st idx apos lhs tok [r]
        = ({ st with
             varID := st.varID + 1
             numTrans := st.numTrans + 1
             points := st.points ++ [⟨.assignKind, idx, inner, r.exprPos⟩] },
           [.assign apos [.ident (newIdent ("_" ++ Nat.repr st.varID) 0),
              .ident (newIdent "_" apos)] .define [inner]],
           .assign apos lhs tok [.ident (newIdent ("_" ++ Nat.repr st.varID) 0)]) := by
  intro funcs st idx apos lhs tok r inner h1 h2 hchk
  simp [visitAssignM, visitAssignNC, eliminateTryCallM, hchk, h1, h2]

/-- Witness for the amended C5: the split applied to `x += try(g())`. -/
theorem trygoC5_compound_assign_split_witness :
    (AsgTok.addAssign ≠ AsgTok.define) ∧
    (AsgTok.addAssign ≠ AsgTok.assign) ∧
    checkTryCall funcs1 tryCallG = .ok sampleCall ∧
    visitAssignM funcs1 st0 0 40 [.ident (newIdent "x" 40)] .addAssign [tryCallG]
      = ({ st0 with
           varID := 1
           numTrans := 1
           points := [⟨.assignKind, 0, sampleCall, 42⟩] },
         [.assign 40 [.ident (newIdent ("_" ++ Nat.repr 0) 0), .ident (newIdent "_" 40)] .define [sampleCall]],
         .assign 40 [.ident (newIdent "x" 40)] .addAssign [.ident (newIdent ("_" ++ Nat.repr 0) 0)]) :=
  ⟨by decide, by decide, rfl,
   trygoC5_compound_assign_split funcs1 st0 0 40 [.ident (newIdent "x" 40)] .addAssign
     tryCallG sampleCall (by decide) (by decide) rfl⟩

/-- C10: a value spec or assignment whose RHS does not consist of exactly
one expression is skipped by pass 1 (no translation point is recorded, the
node is not mutated, the state is unchanged); and when such a multi-value
RHS contains a `try()` call, processing the statement aborts with the
not-translated diagnostic at the position of the stray `try` identifier. -/
theorem trygoC10_multi_value_rhs :
    (∀ (funcs : List FuncType) (st : P1S) (idx : Nat) (spec : ValueSpec),
       spec.values.length ≠ 1 →
       visitSpecM funcs st idx spec = (st, spec)) ∧
    (∀ (funcs : List FuncType) (st : P1S) (idx : Nat) (apos : Pos)
       (lhs : List Expr) (tok : AsgTok) (rhs : List Expr),
       rhs.length ≠ 1 →
       visitAssignM funcs st idx apos lhs tok rhs = (st, [], .assign apos lhs tok rhs)) ∧
    (∀ (funcs : List FuncType) (st : P1S) (tok : DeclTok) (spec : ValueSpec) (p : Pos),
       st.err = none →
       spec.values.length ≠ 1 →
       specStray spec = some p →
       (processStmt funcs st (.varDecl tok spec)).err = some ⟨p, msgNotTranslated⟩
       ∧ (processStmt funcs st (.varDecl tok spec)).numTrans = st.numTrans
       ∧ (processStmt funcs st (.varDecl tok spec)).out = st.out ++ [.varDecl tok spec]) ∧
    (∀ (funcs : List FuncType) (st : P1S) (apos : Pos) (lhs : List Expr)
       (tok : AsgTok) (rhs : List Expr) (p : Pos),
       st.err = none →
       rhs.length ≠ 1 →
       findTryL (lhs ++ rhs) = some p →
       (processStmt funcs st (.assign apos lhs tok rhs)).err = some ⟨p, msgNotTranslated⟩
       ∧ (processStmt funcs st (.assign apos lhs tok rhs)).numTrans = st.numTrans
       ∧ (processStmt funcs st (.assign apos lhs tok rhs)).out
           = st.out ++ [.assign apos lhs tok rhs]) := by
  refine ⟨?_, ?_, ?_, ?_⟩
  · intro funcs st idx spec h
    simp [visitSpecM, h]
  · intro funcs st idx apos lhs tok rhs h
    simp [visitAssignM, h]
  · intro funcs st tok spec p hst hlen hstray
    refine ⟨?_, ?_, ?_⟩ <;>
      simp [processStmt, visitSpecM, hlen, hst, hstray, setStray]
  · intro funcs st apos lhs tok rhs p hst hlen hfind
    refine ⟨?_, ?_, ?_⟩ <;>
      simp [processStmt, visitAssignM, hlen, hst, assignStray, hfind, setStray]

/-- A value spec `var a, b = g(), try(g())` (two RHS values). -/
def spec2v : ValueSpec :=
  ⟨[newIdent "a" 50, newIdent "b" 50], none, [sampleCall, tryCallG], 50⟩

/-- Witness for C10: the skip and the abort evaluated on a two-value spec
and a two-value assignment whose second RHS value is `try(g())`. -/
theorem trygoC10_multi_value_rhs_witness :
    (spec2v.values.length ≠ 1) ∧
    visitSpecM funcs1 st0 0 spec2v = (st0, spec2v) ∧
    (st0.err = none) ∧
    specStray spec2v = some 41 ∧
    (processStmt funcs1 st0 (.varDecl .varTok spec2v)).err = some ⟨41, msgNotTranslated⟩ ∧
    findTryL ([Expr.ident (newIdent "a" 50), Expr.ident (newIdent "b" 50)]
        ++ [sampleCall, tryCallG]) = some 41 ∧
    (processStmt funcs1 st0 (.assign 50 [.ident (newIdent "a" 50), .ident (newIdent "b" 50)]
        .assign [sampleCall, tryCallG])).err = some ⟨41, msgNotTranslated⟩ :=
  ⟨by decide,
   trygoC10_multi_value_rhs.1 funcs1 st0 0 spec2v (by decide),
   rfl,
   rfl,
   (trygoC10_multi_value_rhs.2.2.1 funcs1 st0 .varTok spec2v 41 rfl (by decide) rfl).1,
   rfl,
   (trygoC10_multi_value_rhs.2.2.2 funcs1 st0 50
     [.ident (newIdent "a" 50), .ident (newIdent "b" 50)] .assign [sampleCall, tryCallG] 41
     rfl (by decide) rfl).1⟩

mutual

/-- No `try()` call occurs in the statement, and every assignment operator
is `:=` or `=` (compound assignments are split by pass 1 even without any
`try()` call, see `visitAssign`). -/
def cleanStmt : Stmt → Bool
  | .exprStmt e => (findTryE e).isNone
  | .assign _ lhs tok rhs =>
    (tok = .define || tok = .assign) && (findTryL (lhs ++ rhs)).isNone
  | .varDecl _ sp => (specStray sp).isNone
  | .ifStmt _ ifInit cond body =>
    (initStray ifInit).isNone && (findTryE cond).isNone && cleanStmts body
  | .ret results => (findTryL results).isNone

/-- `cleanStmt` for every statement of a list. -/
def cleanStmts : List Stmt → Bool
  | [] => true
  | s :: rest => cleanStmt s && cleanStmts rest

end

/-- A package with no `try()` call and no compound assignment anywhere. -/
def cleanPkg (pkg : Package) : Bool :=
  pkg.files.all fun f => f.funcs.all fun fd => cleanStmts fd.body

/-- An expression without any `try()` call is never recognised as a `try()`
candidate by `checkTryCall`. -/
theorem findTryE_none_checkTryCall (funcs : List FuncType) (e : Expr)
    (h : findTryE e = none) : checkTryCall funcs e = .notTry := by
  cases e with
  | call fn args cpos =>
    cases fn with
    | ident i =>
      by_cases hn : i.name = "try" <;> simp_all [findTryE, checkTryCall]
    | basicLit k vlt p => rfl
    | call f a p => rfl
    | binary op x y => rfl
    | paren x => rfl
    | compositeLit t => rfl
    | selector x fld => rfl
  | ident i => rfl
  | basicLit k v p => rfl
  | binary op x y => rfl
  | paren x => rfl
  | compositeLit t => rfl
  | selector x fld => rfl

/-- A try-free expression list splits into try-free parts. -/
theorem findTryL_append_none (l1 l2 : List Expr) (h : findTryL (l1 ++ l2) = none) :
    findTryL l1 = none ∧ findTryL l2 = none := by
  induction l1 with
  | nil => exact ⟨rfl, h⟩
  | cons e es ih =>
    simp only [List.cons_append, findTryL] at h ⊢
    cases hfe : findTryE e with
    | some p => rw [hfe] at h; exact absurd h (by simp)
    | none =>
      rw [hfe] at h
      exact ih h

mutual

/-- Pass 1 leaves a clean statement unchanged: the statement is emitted as
is, and no error, translation point, counter bump or translation count is
produced. -/
theorem processStmt_clean (funcs : List FuncType) :
    ∀ (s : Stmt), cleanStmt s = true → ∀ (st : P1S), st.err = none →
      (processStmt funcs st s).out = st.out ++ [s]
      ∧ (processStmt funcs st s).err = none
      ∧ (processStmt funcs st s).numTrans = st.numTrans
      ∧ (processStmt funcs st s).points = st.points
      ∧ (processStmt funcs st s).varID = st.varID
  | .exprStmt e, hc, st, hst => by
    have hfe : findTryE e = none := by
      simpa [cleanStmt, Option.isNone_iff_eq_none] using hc
    have hchk := findTryE_none_checkTryCall funcs e hfe
    simp [processStmt, visitToplevelExprM, eliminateTryCallM, hchk, hst, hfe, setStray]
  | .assign apos lhs tok rhs, hc, st, hst => by
    simp only [cleanStmt, Bool.and_eq_true, Bool.or_eq_true, decide_eq_true_eq,
      Option.isNone_iff_eq_none] at hc
    obtain ⟨htok, hfl⟩ := hc
    have hnc : ¬(tok ≠ AsgTok.define ∧ tok ≠ AsgTok.assign) := by
      rcases htok with h | h <;> simp [h]
    cases rhs with
    | nil =>
      have hfl2 : findTryL lhs = none := by simpa using hfl
      simp [processStmt, visitAssignM, hst, assignStray, hfl2, setStray]
    | cons r rs =>
      cases rs with
      | nil =>
        obtain ⟨hl, hr⟩ := findTryL_append_none lhs [r] hfl
        have hfr : findTryE r = none := by
          cases hfr : findTryE r with
          | some p => simp [findTryL, hfr] at hr
          | none => rfl
        have hchk := findTryE_none_checkTryCall funcs r hfr
        simp [processStmt, visitAssignM, hnc, visitAssignNC, eliminateTryCallM, hchk,
          hst, assignStray, hfl, setStray]
      | cons r2 rs2 =>
        have hlen : (r :: r2 :: rs2).length ≠ 1 := by simp
        simp [processStmt, visitAssignM, hlen, hst, assignStray, hfl, setStray]
  | .varDecl dtok sp, hc, st, hst => by
    have hss : specStray sp = none := by
      simpa [cleanStmt, Option.isNone_iff_eq_none] using hc
    have hout : (visitSpecM funcs st st.out.length sp) = (st, sp) := by
      rcases hv : sp.values with _ | ⟨v, vs⟩
      · simp [visitSpecM, hv]
      · rcases vs with _ | ⟨v2, vs2⟩
        · have hfv : findTryE v = none := by
            unfold specStray at hss
            cases hft : findTryO sp.typ with
            | some p => rw [hft] at hss; simp at hss
            | none =>
              rw [hft] at hss
              rw [hv] at hss
              cases hfe : findTryE v with
              | some p => simp [findTryL, hfe] at hss
              | none => rfl
          have hchk := findTryE_none_checkTryCall funcs v hfv
          simp [visitSpecM, hv, eliminateTryCallM, hchk]
        · have hlen : (v :: v2 :: vs2).length ≠ 1 := by simp
          simp [visitSpecM, hv, hlen]
    simp [processStmt, hout, hst, hss, setStray]
  | .ifStmt ipos ifInit cond body, hc, st, hst => by
    simp only [cleanStmt, Bool.and_eq_true, Option.isNone_iff_eq_none] at hc
    obtain ⟨⟨hinit, hcond⟩, hbody⟩ := hc
    obtain ⟨ho, he, hn, hp, hv⟩ :=
      processStmts_clean funcs body hbody ⟨[], 0, st.numTrans, [], [], none⟩ rfl
    simp [processStmt, hst, hinit, hcond, setStray, ho, he, hn, hp, hv]
  | .ret results, hc, st, hst => by
    have hfl : findTryL results = none := by
      simpa [cleanStmt, Option.isNone_iff_eq_none] using hc
    simp [processStmt, hst, hfl, setStray]

/-- Pass 1 leaves a clean statement list unchanged. -/
theorem processStmts_clean (funcs : List FuncType) :
    ∀ (stmts : List Stmt), cleanStmts stmts = true → ∀ (st : P1S), st.err = none →
      (processStmts funcs st stmts).out = st.out ++ stmts
      ∧ (processStmts funcs st stmts).err = none
      ∧ (processStmts funcs st stmts).numTrans = st.numTrans
      ∧ (processStmts funcs st stmts).points = st.points
      ∧ (processStmts funcs st stmts).varID = st.varID
  | [], _, st, hst => by simp [processStmts, hst]
  | s :: rest, hc, st, hst => by
    simp only [cleanStmts, Bool.and_eq_true] at hc
    obtain ⟨ho, he, hn, hp, hv⟩ := processStmt_clean funcs s hc.1 st hst
    obtain ⟨ho2, he2, hn2, hp2, hv2⟩ :=
      processStmts_clean funcs rest hc.2 (processStmt funcs st s) he
    have hnotsome : st.err.isSome = false := by simp [hst]
    simp [processStmts, hnotsome, ho2, ho, he2, hn2, hn, hp2, hp, hv2, hv]

end

/-- Pass 1 over a list of clean functions reports no error, counts no
translation and keeps every function unchanged. -/
theorem p1Funcs_clean : ∀ (fs : List FuncDecl0), (∀ f ∈ fs, cleanStmts f.body = true) →
    (p1Funcs fs).2.2 = none ∧ (p1Funcs fs).2.1 = 0 ∧ (p1Funcs fs).1.map (·.fdecl) = fs := by
  intro fs h
  induction fs with
  | nil => exact ⟨rfl, rfl, rfl⟩
  | cons f rest ih =>
    have hf := h f (List.mem_cons_self f rest)
    have hrest : ∀ g ∈ rest, cleanStmts g.body = true :=
      fun g hg => h g (List.mem_cons_of_mem _ hg)
    obtain ⟨ho, he, hn, hp, hv⟩ :=
      processStmts_clean [f.ftype] f.body hf ⟨[], 0, 0, [], [], none⟩ rfl
    obtain ⟨ih1, ih2, ih3⟩ := ih hrest
    simp [p1Funcs, runBlockP1, he, ho, hn, ih1, ih2, ih3]

/-- Pass 1 over the files of a clean package reports no error, counts no
translation and keeps every file unchanged. -/
theorem p1Files_clean : ∀ (files : List PkgFile),
    (∀ f ∈ files, ∀ fd ∈ f.funcs, cleanStmts fd.body = true) →
    (p1Files files).2.2 = none ∧ (p1Files files).2.1 = 0
      ∧ stripUnits (p1Files files).1 = files := by
  intro files h
  induction files with
  | nil => exact ⟨rfl, rfl, rfl⟩
  | cons file rest ih =>
    have hfile := h file (List.mem_cons_self file rest)
    have hrest : ∀ g ∈ rest, ∀ fd ∈ g.funcs, cleanStmts fd.body = true :=
      fun g hg => h g (List.mem_cons_of_mem _ hg)
    obtain ⟨h1, h2, h3⟩ := p1Funcs_clean file.funcs hfile
    obtain ⟨ih1, ih2, ih3⟩ := ih hrest
    simp only [p1Files, h1]
    refine ⟨ih1, by simp [h2, ih2], ?_⟩
    simp only [stripUnits, List.map_cons] at ih3 ⊢
    rw [h3, ih3]

/-- C8 (amended): any package that contains no `try()` call and no compound
assignment statement is a fixed point of `translatePackage`: pass 1 leaves
every statement unchanged, no translation point is recorded, the remaining
phases are skipped and the dirty flag stays as it was.  (Packages containing
a compound assignment are excluded because pass 1 splits `lhs op= rhs` into
two statements even when no `try()` call is present.) -/
theorem trygoC8_no_try_fixed_point :
    ∀ (pkg : Package), cleanPkg pkg = true → translatePackage pkg = .ok pkg := by
  intro pkg h
  have hfiles : ∀ f ∈ pkg.files, ∀ fd ∈ f.funcs, cleanStmts fd.body = true := by
    simp only [cleanPkg, List.all_eq_true] at h
    exact h
  obtain ⟨he, hn, hs⟩ := p1Files_clean pkg.files hfiles
  have hsplit : p1Files pkg.files = ((p1Files pkg.files).1, 0, none) := by
    rw [← hn, ← he]
  unfold translatePackage
  rw [hsplit]
  simp [hs]

/-- A function whose body is `x += 1` (no `try()` call anywhere). -/
def c8Func : FuncDecl0 :=
  ⟨⟨some [.ident (newIdent "int" 1), .ident (newIdent "error" 2)]⟩, sampleFrame, 60,
   [.assign 61 [.ident (newIdent "x" 61)] .addAssign [.basicLit .int "1" 62]]⟩

/-- A valid Go package with no `try()` call but one compound assignment. -/
def c8Pkg : Package :=
  NewPackage [⟨"/src/b/b.go", [], [c8Func]⟩] "/src/b" "/out/b" []

/-- Counterexample for C8: `c8Pkg` contains no `try()` call, yet
`translatePackage` rewrites its AST: the compound assignment `x += 1` is
split into `_0 := 1` followed by `x += _0`, so the package is not a fixed
point. -/
theorem trygoC8_counterexample :
    translatePackage c8Pkg
      = .ok { c8Pkg with files :=
          [⟨"/src/b/b.go", [],
            [{ c8Func with body :=
                [.assign 61 [.ident (newIdent "_0" 0)] .define [.basicLit .int "1" 62],
                 .assign 61 [.ident (newIdent "x" 61)] .addAssign [.ident (newIdent "_0" 0)]] }]⟩] }
    ∧ [.assign 61 [.ident (newIdent "_0" 0)] .define [.basicLit .int "1" 62],
       .assign 61 [.ident (newIdent "x" 61)] .addAssign [.ident (newIdent "_0" 0)]]
      ≠ c8Func.body := by
  constructor
  · rfl
  · simp [c8Func]

/-- A clean package: one function whose body is `return nil`. -/
def c8CleanPkg : Package :=
  NewPackage [⟨"/src/c/c.go", [],
    [⟨⟨some [.ident (newIdent "error" 2)]⟩, ⟨[]⟩, 70, [.ret [.ident (newIdent "nil" 71)]]⟩]⟩]
    "/src/c" "/out/c" []

/-- Witness for the amended C8: the clean sample package is a fixed point. -/
theorem trygoC8_no_try_fixed_point_witness :
    cleanPkg c8CleanPkg = true ∧ translatePackage c8CleanPkg = .ok c8CleanPkg :=
  ⟨rfl, trygoC8_no_try_fixed_point c8CleanPkg rfl⟩

/-- A build context in which no import path resolves. -/
def ctxFail : BuildCtx := fun _ _ => none

/-- A package with a single file importing the unresolvable path `foo`. -/
def c7Pkg : Package :=
  NewPackage [⟨"/src/a/a.go", [⟨"foo", 77⟩], []⟩] "/src/a" "/out/a" []

/-- C7: the import fixer does collect every resolution failure and unifies
them into a single positional diagnostic, and `fixImports` returns that
aggregated error — but `Translate` discards the return value of
`fixImports`, so the caller of the translation run receives a successful
result and never sees the diagnostic.  On a package whose sole import fails
to resolve, `fixImports` reports the unified error while `Translate`
returns `.ok` with the import left broken. -/
theorem trygoC7_import_error_discarded :
    (fixImports ctxFail [c7Pkg]).2
      = some ("Import error while fixing import paths: At 77: " ++ msgCannotResolve "foo")
    ∧ Translate ctxFail [c7Pkg]
      = .ok [{ c7Pkg with files := [⟨"/out/a/a.go", [⟨"foo", 77⟩], []⟩] }] :=
  ⟨rfl, rfl⟩

/-- Whether `fixImport` rewrites the given import spec.  The decision
depends only on the build context, the translation map and the package
directory, never on the fixer state. -/
def importRewritten (ctx : BuildCtx) (transMap : List (String × String))
    (pkgDir : String) (node : ImportSpec) : Bool :=
  (fixImport ctx transMap ⟨0, []⟩ node pkgDir).2.2

/-- Whether any import path of any file of the package is rewritten by
the import fixer. -/
def pkgAnyRewrite (ctx : BuildCtx) (transMap : List (String × String))
    (pkg : Package) : Bool :=
  pkg.files.any fun f => f.imports.any (importRewritten ctx transMap pkg.path)

/-- The rewrite decision of `fixImport` is independent of the fixer state. -/
theorem fixImport_hit_eq (ctx : BuildCtx) (tm : List (String × String)) (fx : FixSt)
    (node : ImportSpec) (d : String) :
    (fixImport ctx tm fx node d).2.2 = importRewritten ctx tm d node := by
  cases hc : ctx node.path d with
  | none => simp [importRewritten, fixImport, hc]
  | some srcDir =>
    cases hl : tm.lookup srcDir with
    | none => simp [importRewritten, fixImport, hc, hl]
    | some destDir => simp [importRewritten, fixImport, hc, hl]

/-- The per-file hit flag of `fixFileImports` holds iff some import of the
file is rewritten. -/
theorem fixFileImports_hit (ctx : BuildCtx) (tm : List (String × String))
    (d : String) (imps : List ImportSpec) : ∀ fx : FixSt,
    (fixFileImports ctx tm fx d imps).2.2 = imps.any (importRewritten ctx tm d) := by
  induction imps with
  | nil => intro fx; rfl
  | cons node rest ih =>
    intro fx
    unfold fixFileImports
    rcases h1 : fixImport ctx tm fx node d with ⟨fx1, node2, hit⟩
    dsimp only
    rcases h2 : fixFileImports ctx tm fx1 d rest with ⟨fx2, rest2, hits⟩
    dsimp only
    have e1 := fixImport_hit_eq ctx tm fx node d
    rw [h1] at e1
    have e2 := ih fx1
    rw [h2] at e2
    simp only at e1 e2
    simp [List.any_cons, e1, e2]

/-- The per-package hit flag of `fixPackageFiles` holds iff some import of
some file is rewritten. -/
theorem fixPackageFiles_hit (ctx : BuildCtx) (tm : List (String × String))
    (d : String) (files : List PkgFile) : ∀ fx : FixSt,
    (fixPackageFiles ctx tm fx d files).2.2
      = files.any (fun f => f.imports.any (importRewritten ctx tm d)) := by
  induction files with
  | nil => intro fx; rfl
  | cons file rest ih =>
    intro fx
    unfold fixPackageFiles
    rcases h1 : fixFileImports ctx tm fx d file.imports with ⟨fx1, imps, hit⟩
    dsimp only
    rcases h2 : fixPackageFiles ctx tm fx1 d rest with ⟨fx2, rest2, hits⟩
    dsimp only
    have e1 := fixFileImports_hit ctx tm d file.imports fx
    rw [h1] at e1
    have e2 := ih fx1
    rw [h2] at e2
    simp only at e1 e2
    simp [List.any_cons, e1, e2]

/-- How `fixPackage` updates the dirty flag: it ors the previous flag with
the package-wide rewrite hit. -/
theorem fixPackage_modified (ctx : BuildCtx) (tm : List (String × String))
    (fx : FixSt) (pkg : Package) :
    ((fixPackage ctx tm fx pkg).2).modified = (pkg.modified || pkgAnyRewrite ctx tm pkg) := by
  unfold fixPackage pkgAnyRewrite
  dsimp only
  rw [fixPackageFiles_hit]

/-- How `translatePackage` leaves the dirty flag on success: unchanged when
no translation point was recorded, forced to `true` otherwise. -/
theorem translatePackage_modified (pkg tpkg : Package)
    (h : translatePackage pkg = .ok tpkg) :
    tpkg.modified = (pkg.modified || ((p1Files pkg.files).2.1 != 0)) := by
  unfold translatePackage at h
  rcases hsplit : p1Files pkg.files with ⟨files1, n, err⟩
  rw [hsplit] at h
  dsimp only at h ⊢
  cases err with
  | some e => exact absurd h (by simp)
  | none =>
    dsimp only at h
    by_cases hn : n == 0
    · rw [if_pos hn] at h
      simp only [Except.ok.injEq] at h
      subst h
      have hn0 : n = 0 := by simpa using hn
      subst hn0
      simp
    · rw [if_neg hn] at h
      cases hp : p2Files pkg.typeEnv files1 with
      | none => rw [hp] at h; exact absurd h (by simp)
      | some files2 =>
        rw [hp] at h
        simp only [Except.ok.injEq] at h
        subst h
        simp only
        have : (n != 0) = true := by
          simp only [bne_iff_ne, ne_eq]
          simpa using hn
        rw [this, Bool.or_true]

/-- Preservation: remapping the output file paths never touches the dirty
flag. -/
theorem remapFilePaths_modified (pkg : Package) :
    (remapFilePaths pkg).modified = pkg.modified := rfl

/-- C9: the dirty flag discipline of the pipeline.  A package is born with
the flag unset (`NewPackage`); on success `translatePackage` sets it exactly
when at least one translation point was recorded by pass 1 (otherwise it is
left as it was); `fixPackage` ors in whether at least one import path of the
package was rewritten; remapping output file paths never touches it.
Consequently, for a package that starts clean and is processed to
completion, the final flag is set iff at least one translation point was
applied or at least one import path was rewritten. -/
theorem trygoC9_dirty_flag_iff :
    (∀ (files : List PkgFile) (s d : String) (env : List (Pos × GoType)),
       (NewPackage files s d env).modified = false)
    ∧ (∀ pkg tpkg : Package, translatePackage pkg = .ok tpkg →
         tpkg.modified = (pkg.modified || ((p1Files pkg.files).2.1 != 0)))
    ∧ (∀ (ctx : BuildCtx) (tm : List (String × String)) (fx : FixSt) (pkg : Package),
         ((fixPackage ctx tm fx pkg).2).modified = (pkg.modified || pkgAnyRewrite ctx tm pkg))
    ∧ (∀ pkg : Package, (remapFilePaths pkg).modified = pkg.modified)
    ∧ (∀ (ctx : BuildCtx) (tm : List (String × String)) (fx : FixSt) (pkg tpkg : Package),
         pkg.modified = false → translatePackage pkg = .ok tpkg →
         (((fixPackage ctx tm fx tpkg).2).modified = true
            ↔ ((p1Files pkg.files).2.1 ≠ 0 ∨ pkgAnyRewrite ctx tm tpkg = true))) := by
  refine ⟨fun _ _ _ _ => rfl, translatePackage_modified, fixPackage_modified,
    remapFilePaths_modified, ?_⟩
  intro ctx tm fx pkg tpkg hm h
  rw [fixPackage_modified, translatePackage_modified pkg tpkg h, hm]
  simp [bne_iff_ne]

/-- A package with one import `m/x` and no functions, used to exercise the
dirty-flag discipline. -/
def c9Pkg : Package :=
  NewPackage [⟨"/src/d/d.go", [⟨"m/x", 9⟩], []⟩] "/src/d" "/out/d" []

/-- A build context resolving every import path below `/gopath`. -/
def ctx9 : BuildCtx := fun p _ => some ("/gopath/" ++ p)

/-- A translation map sending the resolved directory of `m/x` to its
translated destination. -/
def c9TM : List (String × String) := [("/gopath/m/x", "/out/m/x")]

/-- Witness for C9 at a concrete package: `translatePackage` leaves the
clean no-point package unchanged, and after fixing imports the flag is set
exactly when a point was applied or an import was rewritten (here:
the import is rewritten). -/
theorem trygoC9_dirty_flag_iff_witness :
    (c9Pkg.modified = (c9Pkg.modified || ((p1Files c9Pkg.files).2.1 != 0)))
    ∧ (((fixPackage ctx9 c9TM ⟨0, []⟩ c9Pkg).2).modified = true
        ↔ ((p1Files c9Pkg.files).2.1 ≠ 0 ∨ pkgAnyRewrite ctx9 c9TM c9Pkg = true)) :=
  ⟨trygoC9_dirty_flag_iff.2.1 c9Pkg c9Pkg rfl,
   trygoC9_dirty_flag_iff.2.2.2.2 ctx9 c9TM ⟨0, []⟩ c9Pkg c9Pkg rfl rfl⟩
